import Mathlib

/-!
Verification development for the qsb-node DID registry pallets
(`pallets/did`, `pallets/revocation-list`, `pallets/schema`).

The three pallets are shallowly embedded as pure state-transition
functions over an explicit registry state.  External primitives that the
pallets call through the Substrate host (`blake2_256`, `mldsa44_verify`,
the genesis block hash) are abstracted into an `Env` record; the `bs58`
crate's base58 codec is modelled concretely, since the textual round-trip
property depends on its behaviour.  Machine integers (`u64` versions,
`u32` lengths and indices) are modelled as `Nat` with explicit bounds and
saturating/checked arithmetic where the source uses them.
-/

namespace QSB

/-- Byte strings (`Vec<u8>` in the source) are lists of naturals; every
byte produced by the engine is `< 256`. -/
abbrev Bytes := List Nat

/-- Helper turning an ASCII string literal into its byte list. -/
def strBytes (s : String) : Bytes := s.data.map Char.toNat

/-! ## Base58 codec (model of the `bs58` crate) -/

/-- The Bitcoin base58 alphabet used by the `bs58` crate, as byte values. -/
def B58_ALPHABET : Bytes :=
  strBytes "123456789ABCDEFGHJKLMNPQRSTUVWXYZabcdefghijkmnopqrstuvwxyz"

/-- Character for one base58 digit. -/
def b58Char (d : Nat) : Nat := B58_ALPHABET.getD d 0

/-- Digit value of one character; `none` when the character is not in the
alphabet. -/
def b58DigitOf (c : Nat) : Option Nat := B58_ALPHABET.findIdx? (· == c)

/-- Digit values of a character string, failing on the first character
outside the alphabet (mirrors the `bs58` decode loop's error path). -/
def b58DigitsOf : Bytes → Option (List Nat)
  | [] => some []
  | c :: cs =>
    match b58DigitOf c, b58DigitsOf cs with
    | some d, some ds => some (d :: ds)
    | _, _ => none

/-- Number of leading zero bytes. -/
def leadingZeroCount (bs : Bytes) : Nat := (bs.takeWhile (· == 0)).length

/-- Modelled from the `bs58` crate's encoder: interpret the bytes as a
big-endian number, write it in base 58 most-significant digit first, and
emit one leading `'1'` (byte 49) per leading zero byte. -/
def b58encode (bs : Bytes) : Bytes :=
  List.replicate (leadingZeroCount bs) 49 ++
    ((Nat.digits 58 (Nat.ofDigits 256 bs.reverse)).reverse.map b58Char)

/-- Modelled from the `bs58` crate's decoder: reject characters outside
the alphabet, interpret the digits as a big-endian number, write it in
base 256 most-significant byte first, and emit one leading zero byte per
leading `'1'` character. -/
def b58decode (cs : Bytes) : Option Bytes :=
  match b58DigitsOf cs with
  | none => none
  | some ds =>
    some (List.replicate (cs.takeWhile (· == 49)).length 0 ++
      (Nat.digits 256 (Nat.ofDigits 58 ds.reverse)).reverse)

theorem b58DigitsOf_append {l1 l2 : Bytes} {d1 d2 : List Nat}
    (h1 : b58DigitsOf l1 = some d1) (h2 : b58DigitsOf l2 = some d2) :
    b58DigitsOf (l1 ++ l2) = some (d1 ++ d2) := by
  induction l1 generalizing d1 with
  | nil =>
    simp only [b58DigitsOf] at h1
    cases h1
    simpa using h2
  | cons c cs ih =>
    simp only [b58DigitsOf] at h1
    split at h1
    · rename_i d ds hc hcs
      cases h1
      rw [List.cons_append]
      simp only [b58DigitsOf]
      rw [hc, ih hcs]
      rfl
    · exact absurd h1 (by simp)

theorem b58DigitOf_one : b58DigitOf 49 = some 0 := by decide

theorem b58DigitsOf_replicate_one (z : Nat) :
    b58DigitsOf (List.replicate z 49) = some (List.replicate z 0) := by
  induction z with
  | zero => rfl
  | succ n ih => simp only [List.replicate_succ, b58DigitsOf, b58DigitOf_one, ih]

theorem b58DigitOf_b58Char {d : Nat} (h : d < 58) : b58DigitOf (b58Char d) = some d := by
  have hfin : ∀ i : Fin 58, b58DigitOf (b58Char i.val) = some i.val := by decide
  exact hfin ⟨d, h⟩

theorem b58Char_ne_one {d : Nat} (h : d < 58) (hd : d ≠ 0) : b58Char d ≠ 49 := by
  have hfin : ∀ i : Fin 58, i.val ≠ 0 → b58Char i.val ≠ 49 := by decide
  exact hfin ⟨d, h⟩ hd

theorem b58DigitsOf_map_b58Char {ds : List Nat} (h : ∀ d ∈ ds, d < 58) :
    b58DigitsOf (ds.map b58Char) = some ds := by
  induction ds with
  | nil => rfl
  | cons d t ih =>
    simp only [List.map_cons, b58DigitsOf,
      b58DigitOf_b58Char (h d (List.mem_cons_self d t)),
      ih (fun x hx => h x (List.mem_cons_of_mem d hx))]

theorem ofDigits_replicate_zero (b z : Nat) :
    Nat.ofDigits b (List.replicate z 0) = 0 := by
  induction z with
  | zero => rfl
  | succ n ih => simp [List.replicate_succ, Nat.ofDigits_cons, ih]

theorem takeWhile_eq_replicate_zero (l : Bytes) :
    l.takeWhile (· == 0) = List.replicate (leadingZeroCount l) 0 := by
  induction l with
  | nil => rfl
  | cons a t ih =>
    by_cases ha : a = 0
    · subst ha
      simp only [leadingZeroCount, List.takeWhile_cons, beq_self_eq_true, if_true,
        List.length_cons, List.replicate_succ]
      exact congrArg (0 :: ·) ih
    · simp [leadingZeroCount, List.takeWhile_cons, ha]

theorem dropWhile_zero_head_ne {l : Bytes} {a : Nat} {t : Bytes}
    (h : l.dropWhile (· == 0) = a :: t) : a ≠ 0 := by
  induction l with
  | nil => simp [List.dropWhile] at h
  | cons b r ih =>
    by_cases hb : b = 0
    · subst hb
      simp only [List.dropWhile_cons, beq_self_eq_true, if_true] at h
      exact ih h
    · simp only [List.dropWhile_cons, beq_iff_eq, if_neg hb] at h
      cases h
      exact hb

theorem takeWhile_append_all {α} {p : α → Bool} {l1 l2 : List α}
    (h : ∀ x ∈ l1, p x = true) :
    (l1 ++ l2).takeWhile p = l1 ++ l2.takeWhile p := by
  induction l1 with
  | nil => rfl
  | cons a t ih =>
    simp only [List.cons_append, List.takeWhile_cons, h a (List.mem_cons_self a t), if_true]
    rw [ih (fun x hx => h x (List.mem_cons_of_mem a hx))]

theorem reverse_getLast_ne_zero {l : List Nat} {a : Nat} {t : List Nat}
    (hl : l = a :: t) (ha : a ≠ 0) : ∀ h : l.reverse ≠ [], l.reverse.getLast h ≠ 0 := by
  subst hl
  intro h
  simp only [List.reverse_cons, List.getLast_append]
  exact ha

theorem digits_concat_last_ne_zero {b n : Nat} {L : List Nat} {d : Nat}
    (h : Nat.digits b n = L ++ [d]) (hn : n ≠ 0) : d ≠ 0 := by
  have hlast := Nat.getLast_digit_ne_zero b hn
  simpa [h] using hlast

/-- Round trip of the base58 codec model on byte strings. -/
theorem b58_roundtrip (bs : Bytes) (hb : ∀ x ∈ bs, x < 256) :
    b58decode (b58encode bs) = some bs := by
  set z := leadingZeroCount bs with hz
  set rest := bs.dropWhile (· == 0) with hrest
  have hsplit : bs = List.replicate z 0 ++ rest := by
    conv_lhs => rw [← List.takeWhile_append_dropWhile (· == 0) bs]
    rw [takeWhile_eq_replicate_zero, ← hz, hrest]
  have hrest_mem : ∀ x ∈ rest, x < 256 := fun x hx =>
    hb x (hsplit ▸ List.mem_append_right _ hx)
  have hn : Nat.ofDigits 256 bs.reverse = Nat.ofDigits 256 rest.reverse := by
    conv_lhs => rw [hsplit]
    rw [List.reverse_append, List.reverse_replicate, Nat.ofDigits_append,
      ofDigits_replicate_zero]
    simp
  set n := Nat.ofDigits 256 rest.reverse with hndef
  have hdigits256 : Nat.digits 256 n = rest.reverse := by
    apply Nat.digits_ofDigits 256 (by norm_num) rest.reverse
    · intro x hx
      exact hrest_mem x (List.mem_reverse.mp hx)
    · intro hne
      have hrne : rest ≠ [] := by
        intro h0
        rw [h0] at hne
        simp at hne
      obtain ⟨a, t, hr⟩ := List.exists_cons_of_ne_nil hrne
      exact reverse_getLast_ne_zero hr (dropWhile_zero_head_ne (hrest ▸ hr)) hne
  have hlt : ∀ d ∈ Nat.digits 58 n, d < 58 := fun d hd =>
    Nat.digits_lt_base (by norm_num) hd
  have hencode : b58encode bs =
      List.replicate z 49 ++ ((Nat.digits 58 n).reverse.map b58Char) := by
    rw [b58encode, ← hz, hn]
  have hds : b58DigitsOf (b58encode bs) =
      some (List.replicate z 0 ++ (Nat.digits 58 n).reverse) := by
    rw [hencode]
    exact b58DigitsOf_append (b58DigitsOf_replicate_one z)
      (b58DigitsOf_map_b58Char (fun d hd => hlt d (List.mem_reverse.mp hd)))
  have htw : ((b58encode bs).takeWhile (· == 49)).length = z := by
    rw [hencode, takeWhile_append_all (by simp)]
    have hrev0 : ((Nat.digits 58 n).reverse.map b58Char).takeWhile (· == 49) = [] := by
      rcases List.eq_nil_or_concat (Nat.digits 58 n) with hnil | ⟨L, d, hLd⟩
      · simp [hnil]
      · rw [List.concat_eq_append] at hLd
        have hn0 : n ≠ 0 := by
          intro h0
          rw [h0] at hLd
          simp at hLd
        have hd_last : d ≠ 0 := digits_concat_last_ne_zero hLd hn0
        have hd58 : d < 58 := hlt d (by rw [hLd]; simp)
        have hmap : (Nat.digits 58 n).reverse.map b58Char =
            b58Char d :: L.reverse.map b58Char := by
          rw [hLd]
          simp
        have hne49 : (b58Char d == 49) = false := by
          simp only [beq_eq_false_iff_ne, ne_eq]
          exact b58Char_ne_one hd58 hd_last
        rw [hmap, List.takeWhile_cons, hne49]
        simp
    rw [hrev0]
    simp
  have hval : Nat.ofDigits 58 ((List.replicate z 0 ++ (Nat.digits 58 n).reverse).reverse) = n := by
    rw [List.reverse_append, List.reverse_reverse, List.reverse_replicate,
      Nat.ofDigits_append, Nat.ofDigits_digits, ofDigits_replicate_zero]
    simp
  unfold b58decode
  rw [hds]
  simp only []
  rw [htw, hval, hdigits256, List.reverse_reverse, ← hsplit]

theorem b58Char_mem {d : Nat} (h : d < 58) : b58Char d ∈ B58_ALPHABET := by
  have hfin : ∀ i : Fin 58, b58Char i.val ∈ B58_ALPHABET := by decide
  exact hfin ⟨d, h⟩

theorem b58encode_mem {c : Nat} {bs : Bytes} (h : c ∈ b58encode bs) : c ∈ B58_ALPHABET := by
  rw [b58encode] at h
  rcases List.mem_append.mp h with h1 | h2
  · have : c = 49 := List.eq_of_mem_replicate h1
    subst this
    decide
  · obtain ⟨d, hd, hdc⟩ := List.mem_map.mp h2
    subst hdc
    exact b58Char_mem (Nat.digits_lt_base (by norm_num) (List.mem_reverse.mp hd))

/-- The textual tags all contain a colon (byte 58), which is not a base58
character, so none of them is ever a leading part of a bare base58 string. -/
theorem tag_not_leading (tag : Bytes) (h58 : 58 ∈ tag) (bs : Bytes) :
    tag.isPrefixOf (b58encode bs) = false := by
  by_contra h
  have hpre : tag <+: b58encode bs :=
    List.isPrefixOf_iff_prefix.mp (Bool.not_eq_false _ |>.mp h)
  have hmem : (58 : Nat) ∈ b58encode bs := hpre.subset h58
  have : (58 : Nat) ∈ B58_ALPHABET := b58encode_mem hmem
  revert this
  decide

/-! ## Data model (`pallets/did`, `pallets/revocation-list`, `pallets/schema`) -/

/-- Key roles, from `pallet::KeyRole` in `pallets/did`. -/
inductive KeyRole
  | Authentication
  | AssertionMethod
  | KeyAgreement
  | CapabilityInvocation
  | CapabilityDelegation
  deriving DecidableEq, Repr

/-- One DID key, from `pallet::DidKey`. -/
structure DidKey where
  public_key : Bytes
  roles : List KeyRole
  revoked : Bool
  deriving DecidableEq, Repr

/-- Service endpoint, from `pallet::ServiceEndpoint`. -/
structure ServiceEndpoint where
  id : Bytes
  service_type : Bytes
  endpoint : Bytes
  deriving DecidableEq, Repr

/-- Metadata entry, from `pallet::MetadataEntry`. -/
structure MetadataEntry where
  key : Bytes
  value : Bytes
  deriving DecidableEq, Repr

/-- DID record, from `pallet::DidDetails`.  The `u64` version counter is a
`Nat`; the source only changes it by `saturating_add`. -/
structure DidDetails where
  version : Nat
  deactivated : Bool
  keys : List DidKey
  services : List ServiceEndpoint
  metadata : List MetadataEntry
  deriving DecidableEq, Repr

/-- Status list record, from `pallet::StatusList` in `pallets/revocation-list`. -/
structure StatusList where
  version : Nat
  issuer_did : Bytes
  list_nonce : Bytes
  bitmap : Bytes
  deriving DecidableEq, Repr

/-- Schema record, from `pallet::SchemaRecord` in `pallets/schema`. -/
structure SchemaRecord where
  version : Nat
  deprecated : Bool
  issuer_did : Bytes
  schema_hash : Bytes
  schema_uri : Bytes
  deriving DecidableEq, Repr

/-- Union of the error enums of the three pallets. -/
inductive Err
  | DidAlreadyExists
  | DidNotFound
  | DidDeactivated
  | KeyAlreadyExists
  | KeyNotFound
  | KeyAlreadyRevoked
  | InvalidDidId
  | ServiceAlreadyExists
  | ServiceNotFound
  | MetadataNotFound
  | InvalidSignature
  | InvalidPublicKey
  | InvalidDidSignature
  | StatusListAlreadyExists
  | StatusListNotFound
  | InvalidStatusListId
  | InvalidListNonce
  | IssuerMismatch
  | StatusIndexOutOfBounds
  | SchemaAlreadyExists
  | SchemaNotFound
  | SchemaDeprecated
  | InvalidSchemaId
  deriving DecidableEq, Repr

/-- Union of the event enums of the three pallets. -/
inductive Event
  | DidCreated (did : Bytes)
  | KeyAdded (did public_key : Bytes)
  | KeyRevoked (did public_key : Bytes)
  | DidDeactivated (did : Bytes)
  | KeyRotated (did old_public_key new_public_key : Bytes)
  | RolesUpdated (did public_key : Bytes)
  | ServiceAdded (did service_id : Bytes)
  | ServiceRemoved (did service_id : Bytes)
  | MetadataSet (did key : Bytes)
  | MetadataRemoved (did key : Bytes)
  | StatusListCreated (status_list_id issuer_did : Bytes)
  | StatusUpdated (status_list_id : Bytes) (status_index : Nat) (revoked : Bool)
  | SchemaRegistered (schema_id issuer_did : Bytes)
  | SchemaDeprecatedEvent (schema_id issuer_did : Bytes)
  deriving DecidableEq, Repr

/-- Host-supplied primitives the pallets use through `sp_io` and
`frame_system`: the chain genesis block hash, the `blake2_256` hash and the
ML-DSA-44 verifier (`mldsa44_verify sig payload pk`).  They are abstracted
because their implementations live outside this repository. -/
structure Env where
  genesis : Bytes
  blake2_256 : Bytes → Bytes
  mldsa44_verify : Bytes → Bytes → Bytes → Bool

/-- Size in bytes of an ML-DSA-44 public key (`sp_core::mldsa44::Public`);
`try_from` on a slice succeeds exactly when the length matches. -/
def PK_LEN : Nat := 1312

/-- Size in bytes of an ML-DSA-44 signature (`sp_core::mldsa44::Signature`). -/
def SIG_LEN : Nat := 2420

/-- The `u64::MAX` bound used by `saturating_add`. -/
def U64_MAX : Nat := 2 ^ 64 - 1

/-- Model of `u64::saturating_add`. -/
def u64_saturating_add (a b : Nat) : Nat := min (a + b) U64_MAX

/-! ## Storage maps

Each pallet owns one `StorageMap` keyed by a 32-byte identifier.  They are
modelled as association lists; `insertMap` overwrites in place, and
`tryMutateMap` mirrors `StorageMap::try_mutate`: the closure's error aborts
without writing, its success writes the new value back. -/

def lookupMap {α} : List (Bytes × α) → Bytes → Option α
  | [], _ => none
  | (k', v) :: rest, k => if k' = k then some v else lookupMap rest k

def insertMap {α} : List (Bytes × α) → Bytes → α → List (Bytes × α)
  | [], k, v => [(k, v)]
  | (k', v') :: rest, k, v =>
    if k' = k then (k, v) :: rest else (k', v') :: insertMap rest k v

def tryMutateMap {α} (m : List (Bytes × α)) (k : Bytes)
    (f : Option α → Except Err α) : Except Err (List (Bytes × α)) :=
  match f (lookupMap m k) with
  | .error e => .error e
  | .ok v => .ok (insertMap m k v)

theorem lookupMap_insertMap_self {α} (m : List (Bytes × α)) (k : Bytes) (v : α) :
    lookupMap (insertMap m k v) k = some v := by
  induction m with
  | nil => simp [insertMap, lookupMap]
  | cons p rest ih =>
    obtain ⟨k', v'⟩ := p
    by_cases h : k' = k
    · simp [insertMap, lookupMap, h]
    · simp [insertMap, lookupMap, h, ih]

theorem lookupMap_insertMap_ne {α} (m : List (Bytes × α)) {k k2 : Bytes} (v : α)
    (h : k ≠ k2) : lookupMap (insertMap m k v) k2 = lookupMap m k2 := by
  induction m with
  | nil => simp [insertMap, lookupMap, h]
  | cons p rest ih =>
    obtain ⟨k', v'⟩ := p
    by_cases hk : k' = k
    · subst hk
      simp [insertMap, lookupMap, h]
    · simp only [insertMap, if_neg hk, lookupMap]
      by_cases hk2 : k' = k2
      · simp [hk2]
      · simp [hk2, ih]

/-- The registry state: the three pallet storages. -/
structure Registry where
  dids : List (Bytes × DidDetails)
  statusLists : List (Bytes × StatusList)
  schemas : List (Bytes × SchemaRecord)
  deriving DecidableEq, Repr

/-! ## SCALE encoding of payload fields

Each command signs a domain-separation tag followed by the SCALE (`parity
scale codec`) encoding of its fields, exactly the bytes produced by
`.encode()` in the source. -/

/-- Little-endian fixed-width bytes. -/
def leBytes (k n : Nat) : Bytes := (List.range k).map (fun i => n / 256 ^ i % 256)

/-- SCALE compact length encoding. -/
def scaleCompact (n : Nat) : Bytes :=
  if n < 64 then [n * 4]
  else if n < 16384 then leBytes 2 (n * 4 + 1)
  else if n < 1073741824 then leBytes 4 (n * 4 + 2)
  else
    let ds := Nat.digits 256 n
    ((ds.length - 4) * 4 + 3) :: ds

/-- SCALE encoding of a `Vec<u8>`: compact length, then the raw bytes. -/
def scaleBytes (b : Bytes) : Bytes := scaleCompact b.length ++ b

/-- SCALE discriminant of a `KeyRole` value. -/
def roleByte : KeyRole → Nat
  | .Authentication => 0
  | .AssertionMethod => 1
  | .KeyAgreement => 2
  | .CapabilityInvocation => 3
  | .CapabilityDelegation => 4

/-- SCALE encoding of a `Vec<KeyRole>`. -/
def scaleRoles (roles : List KeyRole) : Bytes :=
  scaleCompact roles.length ++ roles.map roleByte

/-- SCALE encoding of a `ServiceEndpoint`. -/
def scaleService (s : ServiceEndpoint) : Bytes :=
  scaleBytes s.id ++ scaleBytes s.service_type ++ scaleBytes s.endpoint

/-- SCALE encoding of a `MetadataEntry`. -/
def scaleMetadataEntry (e : MetadataEntry) : Bytes :=
  scaleBytes e.key ++ scaleBytes e.value

/-! ## Constants

The textual and material tag constants of the three pallets.  They are
named `*_PREFIX` in the source; the Lean names use `TAG`. -/

def DID_TEXT_TAG : Bytes := strBytes "did:qsb:"

def DID_MATERIAL_TAG : Bytes := strBytes "QSB_DID"

def DID_CREATE_TAG : Bytes := strBytes "QSB_DID_CREATE"

def DID_ADD_KEY_TAG : Bytes := strBytes "QSB_DID_ADD_KEY"

def DID_REVOKE_KEY_TAG : Bytes := strBytes "QSB_DID_REVOKE_KEY"

def DID_DEACTIVATE_TAG : Bytes := strBytes "QSB_DID_DEACTIVATE"

def DID_ADD_SERVICE_TAG : Bytes := strBytes "QSB_DID_ADD_SERVICE"

def DID_REMOVE_SERVICE_TAG : Bytes := strBytes "QSB_DID_REMOVE_SERVICE"

def DID_SET_METADATA_TAG : Bytes := strBytes "QSB_DID_SET_METADATA"

def DID_REMOVE_METADATA_TAG : Bytes := strBytes "QSB_DID_REMOVE_METADATA"

def DID_ROTATE_KEY_TAG : Bytes := strBytes "QSB_DID_ROTATE_KEY"

def DID_UPDATE_ROLES_TAG : Bytes := strBytes "QSB_DID_UPDATE_ROLES"

def STATUSLIST_TEXT_TAG : Bytes := strBytes "did:qsb:statuslist:"

/-- Byte-identical duplicate of `STATUSLIST_TEXT_TAG`, mirroring the
`STATUSLIST_PREFIX_ALT` constant in the source. -/
def STATUSLIST_TEXT_TAG_ALT : Bytes := strBytes "did:qsb:statuslist:"

def STATUSLIST_MATERIAL_TAG : Bytes := strBytes "QSB_STATUSLIST"

def MIN_LIST_NONCE_BYTES : Nat := 16

def SCHEMA_TEXT_TAG : Bytes := strBytes "did:qsb:schema:"

def SCHEMA_MATERIAL_TAG : Bytes := strBytes "QSB_SCHEMA"

/-! ## Identifier codec (from `pallets/did`, `pallets/revocation-list`,
`pallets/schema`) -/

/-- Embedding of `Pallet::did_id_from_public_key`. -/
def did_id_from_public_key (env : Env) (public_key : Bytes) : Bytes :=
  env.blake2_256 (DID_MATERIAL_TAG ++ env.genesis ++ public_key)

/-- Embedding of `Pallet::did_string_from_did_id`. -/
def did_string_from_did_id (did_id : Bytes) : Bytes :=
  DID_TEXT_TAG ++ b58encode did_id

/-- Embedding of `Pallet::decode_did_id`: strip the textual tag when present, base58
decode, and require exactly 32 bytes. -/
def decode_did_id (input : Bytes) : Except Err Bytes :=
  let bytes := if DID_TEXT_TAG.isPrefixOf input
    then input.drop DID_TEXT_TAG.length else input
  match b58decode bytes with
  | none => .error .InvalidDidId
  | some decoded =>
    if decoded.length = 32 then .ok decoded else .error .InvalidDidId

/-- Embedding of `Pallet::status_list_id_from_parts`. -/
def status_list_id_from_parts (env : Env) (issuer_did list_nonce : Bytes) : Bytes :=
  env.blake2_256 (STATUSLIST_MATERIAL_TAG ++ env.genesis ++ issuer_did ++ list_nonce)

/-- Embedding of `Pallet::status_list_string_from_id`. -/
def status_list_string_from_id (status_list_id : Bytes) : Bytes :=
  STATUSLIST_TEXT_TAG ++ b58encode status_list_id

/-- Embedding of `Pallet::decode_status_list_id`, including the dead byte-identical
alternate-tag branch of the source. -/
def decode_status_list_id (input : Bytes) : Except Err Bytes :=
  let bytes := if STATUSLIST_TEXT_TAG.isPrefixOf input
    then input.drop STATUSLIST_TEXT_TAG.length
    else if STATUSLIST_TEXT_TAG_ALT.isPrefixOf input
    then input.drop STATUSLIST_TEXT_TAG_ALT.length
    else input
  match b58decode bytes with
  | none => .error .InvalidStatusListId
  | some decoded =>
    if decoded.length = 32 then .ok decoded else .error .InvalidStatusListId

/-- Embedding of `Pallet::schema_id_from_schema`. -/
def schema_id_from_schema (env : Env) (schema_json : Bytes) : Bytes :=
  env.blake2_256 (SCHEMA_MATERIAL_TAG ++ env.genesis ++ schema_json)

/-- Embedding of `Pallet::schema_string_from_schema_id`. -/
def schema_string_from_schema_id (schema_id : Bytes) : Bytes :=
  SCHEMA_TEXT_TAG ++ b58encode schema_id

/-- Embedding of `Pallet::decode_schema_id`. -/
def decode_schema_id (input : Bytes) : Except Err Bytes :=
  let bytes := if SCHEMA_TEXT_TAG.isPrefixOf input
    then input.drop SCHEMA_TEXT_TAG.length else input
  match b58decode bytes with
  | none => .error .InvalidSchemaId
  | some decoded =>
    if decoded.length = 32 then .ok decoded else .error .InvalidSchemaId

/-! ## Signature verification (from `pallets/did`) -/

/-- Embedding of `Pallet::verify_signature_with_public_key`: parse the key
(`InvalidPublicKey` on length mismatch), parse the signature
(`InvalidDidSignature`), then require the verifier to accept
(`InvalidSignature`). -/
def verify_signature_with_public_key (env : Env)
    (did_signature payload public_key : Bytes) : Except Err Unit :=
  if public_key.length ≠ PK_LEN then .error .InvalidPublicKey
  else if did_signature.length ≠ SIG_LEN then .error .InvalidDidSignature
  else if env.mldsa44_verify did_signature payload public_key then .ok ()
  else .error .InvalidSignature

/-- One loop iteration test of `Pallet::verify_did_signature`: the key is
not revoked, its bytes parse as an ML-DSA-44 key, and the signature
verifies under it. -/
def keyValidates (env : Env) (sig payload : Bytes) (k : DidKey) : Bool :=
  !k.revoked && k.public_key.length == PK_LEN &&
    env.mldsa44_verify sig payload k.public_key

/-- Embedding of `Pallet::verify_did_signature`: load the DID (`DidNotFound`), parse the
signature (`InvalidDidSignature`), then scan the keys in insertion order and
succeed on the first non-revoked parseable key that verifies
(`InvalidSignature` when none does). -/
def verify_did_signature (env : Env) (dids : List (Bytes × DidDetails))
    (did_id : Bytes) (did_signature payload : Bytes) : Except Err Unit :=
  match lookupMap dids did_id with
  | none => .error .DidNotFound
  | some details =>
    if did_signature.length ≠ SIG_LEN then .error .InvalidDidSignature
    else if (details.keys.find? (keyValidates env did_signature payload)).isSome
    then .ok ()
    else .error .InvalidSignature

/-! ## DID registry commands (from `pallets/did`)

Each command is a function `Registry → ... → Registry × Except Err Event`:
the returned state is the post-state (equal to the input state whenever the
command errors), and the `Except` carries the emitted event or the dispatch
error.  The body follows the source line by line: build the canonical
payload from the wire bytes, decode the identifier, verify the signature,
then mutate under `tryMutateMap` and emit the event. -/

/-- Embedding of `Pallet::create_did`. -/
def create_did (env : Env) (s : Registry) (public_key did_signature : Bytes) :
    Registry × Except Err Event :=
  let did_id := did_id_from_public_key env public_key
  if (lookupMap s.dids did_id).isSome then (s, .error .DidAlreadyExists)
  else
    let payload := DID_CREATE_TAG ++ scaleBytes public_key
    match verify_signature_with_public_key env did_signature payload public_key with
    | .error e => (s, .error e)
    | .ok _ =>
      let details : DidDetails :=
        { version := 0
          deactivated := false
          keys := [{ public_key := public_key, roles := [.Authentication], revoked := false }]
          services := []
          metadata := [] }
      ({ s with dids := insertMap s.dids did_id details },
        .ok (.DidCreated (did_string_from_did_id did_id)))

/-- Embedding of `Pallet::add_key`. -/
def add_key (env : Env) (s : Registry) (did_id public_key : Bytes)
    (roles : List KeyRole) (did_signature : Bytes) : Registry × Except Err Event :=
  let payload := DID_ADD_KEY_TAG ++ scaleBytes did_id ++ scaleBytes public_key ++
    scaleRoles roles
  match decode_did_id did_id with
  | .error e => (s, .error e)
  | .ok id =>
    match verify_did_signature env s.dids id did_signature payload with
    | .error e => (s, .error e)
    | .ok _ =>
      let did := did_string_from_did_id id
      match tryMutateMap s.dids id (fun maybe_details =>
        match maybe_details with
        | none => .error .DidNotFound
        | some details =>
          if details.deactivated then .error .DidDeactivated
          else if details.keys.any (fun key => key.public_key == public_key) then
            .error .KeyAlreadyExists
          else
            .ok { details with
              keys := details.keys ++
                [{ public_key := public_key, roles := roles, revoked := false }]
              version := u64_saturating_add details.version 1 }) with
      | .error e => (s, .error e)
      | .ok dids => ({ s with dids := dids }, .ok (.KeyAdded did public_key))

/-- Closure body of `Pallet::revoke_key`: `iter_mut().find(...)` mutates the
first key whose `public_key` matches. -/
def revokeFirstKey : List DidKey → Bytes → Except Err (List DidKey)
  | [], _ => .error .KeyNotFound
  | k :: rest, public_key =>
    if k.public_key = public_key then
      if k.revoked then .error .KeyAlreadyRevoked
      else .ok ({ k with revoked := true } :: rest)
    else
      match revokeFirstKey rest public_key with
      | .ok rest' => .ok (k :: rest')
      | .error e => .error e

/-- Embedding of `Pallet::revoke_key`. -/
def revoke_key (env : Env) (s : Registry) (did_id public_key did_signature : Bytes) :
    Registry × Except Err Event :=
  let payload := DID_REVOKE_KEY_TAG ++ scaleBytes did_id ++ scaleBytes public_key
  match decode_did_id did_id with
  | .error e => (s, .error e)
  | .ok id =>
    match verify_did_signature env s.dids id did_signature payload with
    | .error e => (s, .error e)
    | .ok _ =>
      let did := did_string_from_did_id id
      match tryMutateMap s.dids id (fun maybe_details =>
        match maybe_details with
        | none => .error .DidNotFound
        | some details =>
          if details.deactivated then .error .DidDeactivated
          else
            match revokeFirstKey details.keys public_key with
            | .error e => .error e
            | .ok keys' =>
              .ok { details with
                keys := keys'
                version := u64_saturating_add details.version 1 }) with
      | .error e => (s, .error e)
      | .ok dids => ({ s with dids := dids }, .ok (.KeyRevoked did public_key))

/-- Embedding of `Pallet::deactivate_did`. -/
def deactivate_did (env : Env) (s : Registry) (did_id did_signature : Bytes) :
    Registry × Except Err Event :=
  let payload := DID_DEACTIVATE_TAG ++ scaleBytes did_id
  match decode_did_id did_id with
  | .error e => (s, .error e)
  | .ok id =>
    match verify_did_signature env s.dids id did_signature payload with
    | .error e => (s, .error e)
    | .ok _ =>
      let did := did_string_from_did_id id
      match tryMutateMap s.dids id (fun maybe_details =>
        match maybe_details with
        | none => .error .DidNotFound
        | some details =>
          if details.deactivated then .error .DidDeactivated
          else
            .ok { details with
              deactivated := true
              version := u64_saturating_add details.version 1 }) with
      | .error e => (s, .error e)
      | .ok dids => ({ s with dids := dids }, .ok (.DidDeactivated did))

/-- Embedding of `Pallet::add_service`. -/
def add_service (env : Env) (s : Registry) (did_id : Bytes)
    (service : ServiceEndpoint) (did_signature : Bytes) : Registry × Except Err Event :=
  let payload := DID_ADD_SERVICE_TAG ++ scaleBytes did_id ++ scaleService service
  match decode_did_id did_id with
  | .error e => (s, .error e)
  | .ok id =>
    match verify_did_signature env s.dids id did_signature payload with
    | .error e => (s, .error e)
    | .ok _ =>
      let did := did_string_from_did_id id
      let service_id := service.id
      match tryMutateMap s.dids id (fun maybe_details =>
        match maybe_details with
        | none => .error .DidNotFound
        | some details =>
          if details.deactivated then .error .DidDeactivated
          else if details.services.any (fun entry => entry.id == service.id) then
            .error .ServiceAlreadyExists
          else
            .ok { details with
              services := details.services ++ [service]
              version := u64_saturating_add details.version 1 }) with
      | .error e => (s, .error e)
      | .ok dids => ({ s with dids := dids }, .ok (.ServiceAdded did service_id))

/-- Model of `Vec::swap_remove`: the removed slot receives the last element
and the vector shrinks by one.  Total on out-of-range indices, which the
callers exclude by construction. -/
def swapRemove {α} (l : List α) (i : Nat) : List α :=
  match l.getLast? with
  | none => l
  | some last => (l.set i last).dropLast

/-- Embedding of `Pallet::remove_service`. -/
def remove_service (env : Env) (s : Registry) (did_id service_id did_signature : Bytes) :
    Registry × Except Err Event :=
  let payload := DID_REMOVE_SERVICE_TAG ++ scaleBytes did_id ++ scaleBytes service_id
  match decode_did_id did_id with
  | .error e => (s, .error e)
  | .ok id =>
    match verify_did_signature env s.dids id did_signature payload with
    | .error e => (s, .error e)
    | .ok _ =>
      let did := did_string_from_did_id id
      match tryMutateMap s.dids id (fun maybe_details =>
        match maybe_details with
        | none => .error .DidNotFound
        | some details =>
          if details.deactivated then .error .DidDeactivated
          else
            match details.services.findIdx? (fun entry => entry.id == service_id) with
            | none => .error .ServiceNotFound
            | some index =>
              .ok { details with
                services := swapRemove details.services index
                version := u64_saturating_add details.version 1 }) with
      | .error e => (s, .error e)
      | .ok dids => ({ s with dids := dids }, .ok (.ServiceRemoved did service_id))

/-- Closure body of `Pallet::set_metadata`: overwrite the value of the
first entry with a matching key in place, else append. -/
def setMetadataValue : List MetadataEntry → MetadataEntry → List MetadataEntry
  | [], entry => [entry]
  | item :: rest, entry =>
    if item.key = entry.key then { item with value := entry.value } :: rest
    else item :: setMetadataValue rest entry

/-- Embedding of `Pallet::set_metadata`. -/
def set_metadata (env : Env) (s : Registry) (did_id : Bytes)
    (entry : MetadataEntry) (did_signature : Bytes) : Registry × Except Err Event :=
  let payload := DID_SET_METADATA_TAG ++ scaleBytes did_id ++ scaleMetadataEntry entry
  match decode_did_id did_id with
  | .error e => (s, .error e)
  | .ok id =>
    match verify_did_signature env s.dids id did_signature payload with
    | .error e => (s, .error e)
    | .ok _ =>
      let did := did_string_from_did_id id
      let key := entry.key
      match tryMutateMap s.dids id (fun maybe_details =>
        match maybe_details with
        | none => .error .DidNotFound
        | some details =>
          if details.deactivated then .error .DidDeactivated
          else
            .ok { details with
              metadata := setMetadataValue details.metadata entry
              version := u64_saturating_add details.version 1 }) with
      | .error e => (s, .error e)
      | .ok dids => ({ s with dids := dids }, .ok (.MetadataSet did key))

/-- Embedding of `Pallet::remove_metadata`. -/
def remove_metadata (env : Env) (s : Registry) (did_id key did_signature : Bytes) :
    Registry × Except Err Event :=
  let payload := DID_REMOVE_METADATA_TAG ++ scaleBytes did_id ++ scaleBytes key
  match decode_did_id did_id with
  | .error e => (s, .error e)
  | .ok id =>
    match verify_did_signature env s.dids id did_signature payload with
    | .error e => (s, .error e)
    | .ok _ =>
      let did := did_string_from_did_id id
      match tryMutateMap s.dids id (fun maybe_details =>
        match maybe_details with
        | none => .error .DidNotFound
        | some details =>
          if details.deactivated then .error .DidDeactivated
          else
            match details.metadata.findIdx? (fun item => item.key == key) with
            | none => .error .MetadataNotFound
            | some index =>
              .ok { details with
                metadata := swapRemove details.metadata index
                version := u64_saturating_add details.version 1 }) with
      | .error e => (s, .error e)
      | .ok dids => ({ s with dids := dids }, .ok (.MetadataRemoved did key))

/-- Embedding of `Pallet::rotate_key`. -/
def rotate_key (env : Env) (s : Registry)
    (did_id old_public_key new_public_key : Bytes) (roles : List KeyRole)
    (did_signature : Bytes) : Registry × Except Err Event :=
  let payload := DID_ROTATE_KEY_TAG ++ scaleBytes did_id ++ scaleBytes old_public_key ++
    scaleBytes new_public_key ++ scaleRoles roles
  match decode_did_id did_id with
  | .error e => (s, .error e)
  | .ok id =>
    match verify_did_signature env s.dids id did_signature payload with
    | .error e => (s, .error e)
    | .ok _ =>
      let did := did_string_from_did_id id
      match tryMutateMap s.dids id (fun maybe_details =>
        match maybe_details with
        | none => .error .DidNotFound
        | some details =>
          if details.deactivated then .error .DidDeactivated
          else if details.keys.any (fun key => key.public_key == new_public_key) then
            .error .KeyAlreadyExists
          else
            match revokeFirstKey details.keys old_public_key with
            | .error e => .error e
            | .ok keys' =>
              .ok { details with
                keys := keys' ++
                  [{ public_key := new_public_key, roles := roles, revoked := false }]
                version := u64_saturating_add details.version 1 }) with
      | .error e => (s, .error e)
      | .ok dids =>
        ({ s with dids := dids },
          .ok (.KeyRotated did old_public_key new_public_key))

/-- Closure body of `Pallet::update_roles`: replace the role list of the
first key whose `public_key` matches, requiring it not revoked. -/
def setRolesFirstKey : List DidKey → Bytes → List KeyRole → Except Err (List DidKey)
  | [], _, _ => .error .KeyNotFound
  | k :: rest, public_key, roles =>
    if k.public_key = public_key then
      if k.revoked then .error .KeyAlreadyRevoked
      else .ok ({ k with roles := roles } :: rest)
    else
      match setRolesFirstKey rest public_key roles with
      | .ok rest' => .ok (k :: rest')
      | .error e => .error e

/-- Embedding of `Pallet::update_roles`. -/
def update_roles (env : Env) (s : Registry) (did_id public_key : Bytes)
    (roles : List KeyRole) (did_signature : Bytes) : Registry × Except Err Event :=
  let payload := DID_UPDATE_ROLES_TAG ++ scaleBytes did_id ++ scaleBytes public_key ++
    scaleRoles roles
  match decode_did_id did_id with
  | .error e => (s, .error e)
  | .ok id =>
    match verify_did_signature env s.dids id did_signature payload with
    | .error e => (s, .error e)
    | .ok _ =>
      let did := did_string_from_did_id id
      match tryMutateMap s.dids id (fun maybe_details =>
        match maybe_details with
        | none => .error .DidNotFound
        | some details =>
          if details.deactivated then .error .DidDeactivated
          else
            match setRolesFirstKey details.keys public_key roles with
            | .error e => .error e
            | .ok keys' =>
              .ok { details with
                keys := keys'
                version := u64_saturating_add details.version 1 }) with
      | .error e => (s, .error e)
      | .ok dids => ({ s with dids := dids }, .ok (.RolesUpdated did public_key))

/-! ## Status-list registry commands (from `pallets/revocation-list`)

`list_length` and `status_index` are `u32` values; `usize` arithmetic runs
on the wasm32 runtime, so `checked_mul` overflows above `2^32 - 1`.  The
`_did_signature` parameters are accepted but never verified, exactly as in
the source. -/

def U32_MAX : Nat := 2 ^ 32 - 1

def USIZE_MAX : Nat := 2 ^ 32 - 1

/-- Embedding of `Pallet::create_status_list`. -/
def create_status_list (env : Env) (s : Registry)
    (issuer_did list_nonce : Bytes) (list_length : Nat)
    (_did_signature : Bytes) : Registry × Except Err Event :=
  if list_nonce.length < MIN_LIST_NONCE_BYTES then (s, .error .InvalidListNonce)
  else
    let status_list_id := status_list_id_from_parts env issuer_did list_nonce
    if (lookupMap s.statusLists status_list_id).isSome then
      (s, .error .StatusListAlreadyExists)
    else if list_length + 7 > U32_MAX then (s, .error .StatusIndexOutOfBounds)
    else
      let bitmap_len := (list_length + 7) / 8
      let bitmap := List.replicate bitmap_len 0
      let record : StatusList :=
        { version := 0, issuer_did := issuer_did, list_nonce := list_nonce,
          bitmap := bitmap }
      ({ s with statusLists := insertMap s.statusLists status_list_id record },
        .ok (.StatusListCreated (status_list_string_from_id status_list_id) issuer_did))

/-- Embedding of `Pallet::set_status`. -/
def set_status (_env : Env) (s : Registry)
    (status_list_id issuer_did : Bytes) (status_index : Nat) (revoked : Bool)
    (_did_signature : Bytes) : Registry × Except Err Event :=
  match decode_status_list_id status_list_id with
  | .error e => (s, .error e)
  | .ok id =>
    let status_list_id_full := status_list_string_from_id id
    match tryMutateMap s.statusLists id (fun maybe_record =>
      match maybe_record with
      | none => .error .StatusListNotFound
      | some record =>
        if record.issuer_did ≠ issuer_did then .error .IssuerMismatch
        else if record.bitmap.length * 8 > USIZE_MAX then
          .error .StatusIndexOutOfBounds
        else if ¬ status_index < record.bitmap.length * 8 then
          .error .StatusIndexOutOfBounds
        else
          let byte_index := status_index / 8
          let bit_index := status_index % 8
          let mask := 1 <<< bit_index
          let b := record.bitmap.getD byte_index 0
          let b' := if revoked then b ||| mask else b &&& (255 ^^^ mask)
          .ok { record with
            bitmap := record.bitmap.set byte_index b'
            version := u64_saturating_add record.version 1 }) with
    | .error e => (s, .error e)
    | .ok statusLists =>
      ({ s with statusLists := statusLists },
        .ok (.StatusUpdated status_list_id_full status_index revoked))

/-! ## Schema registry commands (from `pallets/schema`) -/

/-- Embedding of `Pallet::register_schema`. -/
def register_schema (env : Env) (s : Registry)
    (schema_json schema_uri issuer_did _did_signature : Bytes) :
    Registry × Except Err Event :=
  let schema_id := schema_id_from_schema env schema_json
  if (lookupMap s.schemas schema_id).isSome then (s, .error .SchemaAlreadyExists)
  else
    let schema_hash := env.blake2_256 schema_json
    let record : SchemaRecord :=
      { version := 0, deprecated := false, issuer_did := issuer_did,
        schema_hash := schema_hash, schema_uri := schema_uri }
    ({ s with schemas := insertMap s.schemas schema_id record },
      .ok (.SchemaRegistered (schema_string_from_schema_id schema_id) issuer_did))

/-- Embedding of `Pallet::deprecate_schema`. -/
def deprecate_schema (_env : Env) (s : Registry)
    (schema_id issuer_did _did_signature : Bytes) : Registry × Except Err Event :=
  match decode_schema_id schema_id with
  | .error e => (s, .error e)
  | .ok id =>
    let schema_id_full := schema_string_from_schema_id id
    match tryMutateMap s.schemas id (fun maybe_record =>
      match maybe_record with
      | none => .error .SchemaNotFound
      | some record =>
        if record.deprecated then .error .SchemaDeprecated
        else if record.issuer_did ≠ issuer_did then .error .IssuerMismatch
        else
          .ok { record with
            deprecated := true
            version := u64_saturating_add record.version 1 }) with
    | .error e => (s, .error e)
    | .ok schemas =>
      ({ s with schemas := schemas },
        .ok (.SchemaDeprecatedEvent schema_id_full issuer_did))

/-! ## Read accessors

The accessors take no mutable storage reference in the source; they are
given the same state-passing type as the commands to make their
non-mutation statable. -/

/-- Embedding of `Pallet::get_did`. -/
def get_did (s : Registry) (did_id : Bytes) : Registry × Except Err DidDetails :=
  (s, match decode_did_id did_id with
      | .error e => .error e
      | .ok id =>
        match lookupMap s.dids id with
        | none => .error .DidNotFound
        | some details => .ok details)

/-- Embedding of `Pallet::get_status_list`. -/
def get_status_list (s : Registry) (status_list_id : Bytes) :
    Registry × Except Err StatusList :=
  (s, match decode_status_list_id status_list_id with
      | .error e => .error e
      | .ok id =>
        match lookupMap s.statusLists id with
        | none => .error .StatusListNotFound
        | some record => .ok record)

/-- Embedding of `Pallet::get_schema`. -/
def get_schema (s : Registry) (schema_id : Bytes) :
    Registry × Except Err SchemaRecord :=
  (s, match decode_schema_id schema_id with
      | .error e => .error e
      | .ok id =>
        match lookupMap s.schemas id with
        | none => .error .SchemaNotFound
        | some record => .ok record)

/-! ## Command dispatch -/

/-- The fourteen signed commands of the three pallets, with their wire
arguments in declaration order (the trailing field is the signature). -/
inductive Command
  | createDid (public_key did_signature : Bytes)
  | addKey (did_id public_key : Bytes) (roles : List KeyRole) (did_signature : Bytes)
  | revokeKey (did_id public_key did_signature : Bytes)
  | deactivateDid (did_id did_signature : Bytes)
  | addService (did_id : Bytes) (service : ServiceEndpoint) (did_signature : Bytes)
  | removeService (did_id service_id did_signature : Bytes)
  | setMetadata (did_id : Bytes) (entry : MetadataEntry) (did_signature : Bytes)
  | removeMetadata (did_id key did_signature : Bytes)
  | rotateKey (did_id old_public_key new_public_key : Bytes) (roles : List KeyRole)
      (did_signature : Bytes)
  | updateRoles (did_id public_key : Bytes) (roles : List KeyRole)
      (did_signature : Bytes)
  | createStatusList (issuer_did list_nonce : Bytes) (list_length : Nat)
      (did_signature : Bytes)
  | setStatus (status_list_id issuer_did : Bytes) (status_index : Nat)
      (revoked : Bool) (did_signature : Bytes)
  | registerSchema (schema_json schema_uri issuer_did did_signature : Bytes)
  | deprecateSchema (schema_id issuer_did did_signature : Bytes)
  deriving DecidableEq, Repr

/-- The deterministic transition function: dispatch one command. -/
def applyCommand (env : Env) (s : Registry) : Command → Registry × Except Err Event
  | .createDid pk sig => create_did env s pk sig
  | .addKey did pk roles sig => add_key env s did pk roles sig
  | .revokeKey did pk sig => revoke_key env s did pk sig
  | .deactivateDid did sig => deactivate_did env s did sig
  | .addService did service sig => add_service env s did service sig
  | .removeService did sid sig => remove_service env s did sid sig
  | .setMetadata did entry sig => set_metadata env s did entry sig
  | .removeMetadata did key sig => remove_metadata env s did key sig
  | .rotateKey did old_pk new_pk roles sig => rotate_key env s did old_pk new_pk roles sig
  | .updateRoles did pk roles sig => update_roles env s did pk roles sig
  | .createStatusList issuer nonce len sig => create_status_list env s issuer nonce len sig
  | .setStatus lid issuer idx rev sig => set_status env s lid issuer idx rev sig
  | .registerSchema json uri issuer sig => register_schema env s json uri issuer sig
  | .deprecateSchema sid issuer sig => deprecate_schema env s sid issuer sig

/-- Wire-form DID identifier of the nine DID-registry commands that target
an existing DID (`none` for `create_did` and the other pallets). -/
def Command.didTarget : Command → Option Bytes
  | .addKey did _ _ _ => some did
  | .revokeKey did _ _ => some did
  | .deactivateDid did _ => some did
  | .addService did _ _ => some did
  | .removeService did _ _ => some did
  | .setMetadata did _ _ => some did
  | .removeMetadata did _ _ => some did
  | .rotateKey did _ _ _ _ => some did
  | .updateRoles did _ _ _ => some did
  | _ => none

/-- The signature argument of a command. -/
def Command.didSig : Command → Bytes
  | .createDid _ sig => sig
  | .addKey _ _ _ sig => sig
  | .revokeKey _ _ sig => sig
  | .deactivateDid _ sig => sig
  | .addService _ _ sig => sig
  | .removeService _ _ sig => sig
  | .setMetadata _ _ sig => sig
  | .removeMetadata _ _ sig => sig
  | .rotateKey _ _ _ _ sig => sig
  | .updateRoles _ _ _ sig => sig
  | .createStatusList _ _ _ sig => sig
  | .setStatus _ _ _ _ sig => sig
  | .registerSchema _ _ _ sig => sig
  | .deprecateSchema _ _ sig => sig

/-- Canonical signing payload of a DID-registry command (§4.2 table): the
ASCII domain-separation tag followed by the SCALE encoding of the wire
fields.  Empty for the status-list and schema commands, whose signatures
the source never verifies. -/
def Command.canonicalPayload : Command → Bytes
  | .createDid pk _ => DID_CREATE_TAG ++ scaleBytes pk
  | .addKey did pk roles _ =>
    DID_ADD_KEY_TAG ++ scaleBytes did ++ scaleBytes pk ++ scaleRoles roles
  | .revokeKey did pk _ => DID_REVOKE_KEY_TAG ++ scaleBytes did ++ scaleBytes pk
  | .deactivateDid did _ => DID_DEACTIVATE_TAG ++ scaleBytes did
  | .addService did service _ =>
    DID_ADD_SERVICE_TAG ++ scaleBytes did ++ scaleService service
  | .removeService did sid _ =>
    DID_REMOVE_SERVICE_TAG ++ scaleBytes did ++ scaleBytes sid
  | .setMetadata did entry _ =>
    DID_SET_METADATA_TAG ++ scaleBytes did ++ scaleMetadataEntry entry
  | .removeMetadata did key _ =>
    DID_REMOVE_METADATA_TAG ++ scaleBytes did ++ scaleBytes key
  | .rotateKey did old_pk new_pk roles _ =>
    DID_ROTATE_KEY_TAG ++ scaleBytes did ++ scaleBytes old_pk ++
      scaleBytes new_pk ++ scaleRoles roles
  | .updateRoles did pk roles _ =>
    DID_UPDATE_ROLES_TAG ++ scaleBytes did ++ scaleBytes pk ++ scaleRoles roles
  | .createStatusList _ _ _ _ => []
  | .setStatus _ _ _ _ _ => []
  | .registerSchema _ _ _ _ => []
  | .deprecateSchema _ _ _ => []

/-- Discriminator for `create_did`. -/
def Command.isCreateDid : Command → Bool
  | .createDid _ _ => true
  | _ => false

/-! ## Concrete evaluation fixtures -/

/-- Environment with a constant hash and a verifier accepting everything,
used to evaluate the transition function on concrete inputs. -/
def envT : Env :=
  { genesis := List.replicate 32 0
    blake2_256 := fun _ => List.replicate 32 0
    mldsa44_verify := fun _ _ _ => true }

/-- Environment whose verifier rejects everything. -/
def envF : Env :=
  { genesis := List.replicate 32 0
    blake2_256 := fun _ => List.replicate 32 0
    mldsa44_verify := fun _ _ _ => false }

/-- The empty registry. -/
def regEmpty : Registry := { dids := [], statusLists := [], schemas := [] }

/-! ## Claim theorems -/

/-- C1: for every command and every pre-state, if the command returns an
error (signature failure, invariant violation, or existence check), the
registry state after the call is identical to the pre-state.  No event is
emitted on failure: the `Except Err Event` result carries an event only in
its success case. -/
theorem command_atomicity (env : Env) (s : Registry) (c : Command) (e : Err)
    (h : (applyCommand env s c).2 = .error e) : (applyCommand env s c).1 = s := by
  cases c <;>
    simp only [applyCommand, create_did, add_key, revoke_key, deactivate_did,
      add_service, remove_service, set_metadata, remove_metadata, rotate_key,
      update_roles, create_status_list, set_status, register_schema,
      deprecate_schema] at h ⊢ <;>
    (repeat' split) <;>
    first
      | rfl
      | simp_all

/-- C1 witness: a failing `create_did` (malformed key) leaves the empty
registry unchanged. -/
theorem command_atomicity_witness :
    (applyCommand envT regEmpty (.createDid [] [])).1 = regEmpty :=
  command_atomicity envT regEmpty (.createDid [] []) .InvalidPublicKey rfl

/-- C5: `create_did` derives the identifier as the Blake2b-256 hash of
`"QSB_DID" || genesis-block-hash || public_key`; it fails with
`DidAlreadyExists` when a record at that id is present; otherwise, once the
signature verifies over the canonical payload, it inserts exactly
`DidDetails{version 0, not deactivated, keys [{public_key, [Authentication],
not revoked}], no services, no metadata}` and emits `DidCreated` with the
textual form `"did:qsb:" || base58(id)`. -/
theorem create_did_correct (env : Env) (s : Registry) (public_key sig : Bytes) :
    (did_id_from_public_key env public_key =
      env.blake2_256 (DID_MATERIAL_TAG ++ env.genesis ++ public_key)) ∧
    (∀ d, lookupMap s.dids (did_id_from_public_key env public_key) = some d →
      applyCommand env s (.createDid public_key sig) = (s, .error .DidAlreadyExists)) ∧
    (lookupMap s.dids (did_id_from_public_key env public_key) = none →
      verify_signature_with_public_key env sig
        (DID_CREATE_TAG ++ scaleBytes public_key) public_key = .ok () →
      applyCommand env s (.createDid public_key sig) =
        ({ s with dids := insertMap s.dids (did_id_from_public_key env public_key)
                      ({ version := 0, deactivated := false,
                         keys := [{ public_key := public_key, roles := [.Authentication],
                                    revoked := false }],
                         services := [], metadata := [] }) },
          .ok (.DidCreated (DID_TEXT_TAG ++
            b58encode (did_id_from_public_key env public_key))))) := by
  refine ⟨rfl, ?_, ?_⟩
  · intro d hd
    simp [applyCommand, create_did, hd]
  · intro hnone hver
    simp [applyCommand, create_did, hnone, hver, did_string_from_did_id]

/-- Fixture: a well-sized public key. -/
def pk1 : Bytes := List.replicate PK_LEN 7

/-- Fixture: a well-sized signature. -/
def sig1 : Bytes := List.replicate SIG_LEN 9

/-- C5 witness: creating a DID in the empty registry with the accepting
verifier inserts the initial record. -/
theorem create_did_correct_witness :
    applyCommand envT regEmpty (.createDid pk1 sig1) =
      ({ regEmpty with dids := insertMap regEmpty.dids (did_id_from_public_key envT pk1)
                           ({ version := 0, deactivated := false,
                              keys := [{ public_key := pk1, roles := [.Authentication],
                                         revoked := false }],
                              services := [], metadata := [] }) },
        .ok (.DidCreated (DID_TEXT_TAG ++ b58encode (did_id_from_public_key envT pk1)))) :=
  (create_did_correct envT regEmpty pk1 sig1).2.2 rfl (by
    have hpk : pk1.length = PK_LEN := by simp [pk1]
    have hsig : sig1.length = SIG_LEN := by simp [sig1]
    simp [verify_signature_with_public_key, hpk, hsig, envT])

/-- C8: `create_status_list` rejects nonces shorter than 16 bytes with
`InvalidListNonce` and creates nothing; otherwise, when no list with the
derived id exists, it inserts a record with version 0 and a bitmap of
exactly `ceil(list_length/8)` zero bytes (the last conjunct pins
`(list_length + 7) / 8` as that ceiling), and a `u32` overflow of
`list_length + 7` fails with `StatusIndexOutOfBounds`. -/
theorem create_status_list_correct (env : Env) (s : Registry)
    (issuer_did list_nonce : Bytes) (list_length : Nat) (sig : Bytes) :
    (list_nonce.length < 16 →
      applyCommand env s (.createStatusList issuer_did list_nonce list_length sig) =
        (s, .error .InvalidListNonce)) ∧
    (16 ≤ list_nonce.length →
      lookupMap s.statusLists (status_list_id_from_parts env issuer_did list_nonce) = none →
      list_length + 7 ≤ U32_MAX →
      applyCommand env s (.createStatusList issuer_did list_nonce list_length sig) =
        ({ s with statusLists := insertMap s.statusLists
                      (status_list_id_from_parts env issuer_did list_nonce)
                      ({ version := 0, issuer_did := issuer_did, list_nonce := list_nonce,
                         bitmap := List.replicate ((list_length + 7) / 8) 0 }) },
          .ok (.StatusListCreated
            (status_list_string_from_id
              (status_list_id_from_parts env issuer_did list_nonce)) issuer_did))) ∧
    (16 ≤ list_nonce.length →
      lookupMap s.statusLists (status_list_id_from_parts env issuer_did list_nonce) = none →
      U32_MAX < list_length + 7 →
      applyCommand env s (.createStatusList issuer_did list_nonce list_length sig) =
        (s, .error .StatusIndexOutOfBounds)) ∧
    (list_length ≤ 8 * ((list_length + 7) / 8) ∧
      8 * ((list_length + 7) / 8) < list_length + 8) := by
  refine ⟨?_, ?_, ?_, by omega⟩
  · intro hshort
    have h1 : list_nonce.length < MIN_LIST_NONCE_BYTES := by
      simpa [MIN_LIST_NONCE_BYTES] using hshort
    simp [applyCommand, create_status_list, h1]
  · intro h16 hnone hbound
    have h1 : ¬ list_nonce.length < MIN_LIST_NONCE_BYTES := by
      simp only [MIN_LIST_NONCE_BYTES]
      omega
    simp [applyCommand, create_status_list, h1, hnone, Nat.not_lt.mpr hbound]
  · intro h16 hnone hbound
    have h1 : ¬ list_nonce.length < MIN_LIST_NONCE_BYTES := by
      simp only [MIN_LIST_NONCE_BYTES]
      omega
    simp [applyCommand, create_status_list, h1, hnone, hbound]

/-- Bitmap written by a successful `set_status`: byte `index / 8` is
updated with `mask = 1 <<< (index % 8)`, ored in when revoking, masked out
when clearing. -/
def setStatusBitmap (bm : Bytes) (idx : Nat) (rev : Bool) : Bytes :=
  bm.set (idx / 8)
    (if rev then bm.getD (idx / 8) 0 ||| 1 <<< (idx % 8)
     else bm.getD (idx / 8) 0 &&& (255 ^^^ 1 <<< (idx % 8)))

/-- Little-endian-within-byte bit accessor of a bitmap. -/
def bitGet (bm : Bytes) (i : Nat) : Bool :=
  Nat.testBit (bm.getD (i / 8) 0) (i % 8)

theorem getD_set_self {α} (l : List α) (i : Nat) (a d : α) (h : i < l.length) :
    (l.set i a).getD i d = a := by
  rw [List.getD_eq_getElem?_getD, List.getElem?_set_self h]
  rfl

theorem getD_set_ne {α} (l : List α) (i j : Nat) (a d : α) (h : i ≠ j) :
    (l.set i a).getD j d = l.getD j d := by
  rw [List.getD_eq_getElem?_getD, List.getElem?_set_ne h, ← List.getD_eq_getElem?_getD]

theorem testBit_update_eq (b k : Nat) (hk : k < 8) (rev : Bool) :
    Nat.testBit (if rev then b ||| 1 <<< k else b &&& (255 ^^^ 1 <<< k)) k = rev := by
  have h2 : (1 : Nat) <<< k = 2 ^ k := Nat.one_shiftLeft k
  have h255 : Nat.testBit 255 k = true := by
    have h8 : (255 : Nat) = 2 ^ 8 - 1 := by norm_num
    rw [h8, Nat.testBit_two_pow_sub_one]
    simpa using hk
  cases rev with
  | true =>
    rw [if_pos rfl, h2, Nat.testBit_lor, Nat.testBit_two_pow]
    simp
  | false =>
    rw [if_neg (by simp), h2, Nat.testBit_land, Nat.testBit_xor, Nat.testBit_two_pow, h255]
    simp

theorem testBit_update_ne (b k j : Nat) (hj : j < 8) (hne : j ≠ k) (rev : Bool) :
    Nat.testBit (if rev then b ||| 1 <<< k else b &&& (255 ^^^ 1 <<< k)) j =
      Nat.testBit b j := by
  have h2 : (1 : Nat) <<< k = 2 ^ k := Nat.one_shiftLeft k
  have hpow : Nat.testBit (2 ^ k) j = false := by
    rw [Nat.testBit_two_pow]
    simp [Ne.symm hne]
  have h255 : Nat.testBit 255 j = true := by
    have h8 : (255 : Nat) = 2 ^ 8 - 1 := by norm_num
    rw [h8, Nat.testBit_two_pow_sub_one]
    simpa using hj
  cases rev with
  | true =>
    rw [if_pos rfl, h2, Nat.testBit_lor, hpow]
    simp
  | false =>
    rw [if_neg (by simp), h2, Nat.testBit_land, Nat.testBit_xor, hpow, h255]
    simp

theorem bitGet_setStatusBitmap_eq {bm : Bytes} {idx : Nat}
    (hi : idx < bm.length * 8) (rev : Bool) :
    bitGet (setStatusBitmap bm idx rev) idx = rev := by
  have hdiv : idx / 8 < bm.length := by omega
  rw [bitGet, setStatusBitmap, getD_set_self _ _ _ _ hdiv]
  exact testBit_update_eq _ _ (Nat.mod_lt _ (by norm_num)) rev

theorem bitGet_setStatusBitmap_ne {bm : Bytes} {idx j : Nat}
    (hi : idx < bm.length * 8) (hne : j ≠ idx) (rev : Bool) :
    bitGet (setStatusBitmap bm idx rev) j = bitGet bm j := by
  have hdiv : idx / 8 < bm.length := by omega
  by_cases hbyte : j / 8 = idx / 8
  · have hmodne : j % 8 ≠ idx % 8 := by omega
    rw [bitGet, setStatusBitmap, hbyte, getD_set_self _ _ _ _ hdiv, bitGet, hbyte]
    exact testBit_update_ne _ _ _ (Nat.mod_lt _ (by norm_num)) hmodne rev
  · rw [bitGet, setStatusBitmap, getD_set_ne bm (idx / 8) (j / 8) _ 0
      (fun hc => hbyte hc.symm), bitGet]

/-- C8 witness: a 15-byte nonce is rejected with `InvalidListNonce`. -/
theorem create_status_list_correct_witness :
    applyCommand envT regEmpty
      (.createStatusList (strBytes "issuerA") (List.replicate 15 0) 8 []) =
      (regEmpty, .error .InvalidListNonce) :=
  (create_status_list_correct envT regEmpty (strBytes "issuerA")
    (List.replicate 15 0) 8 []).1 (by decide)

/-- Fixture: the all-zero 32-byte identifier. -/
def slId0 : Bytes := List.replicate 32 0

/-- Fixture: the wire form of `slId0`, base58 `"1"` repeated 32 times. -/
def slWire0 : Bytes := List.replicate 32 49

/-- Fixture: an issuer DID string. -/
def issuerA : Bytes := strBytes "issuerA"

/-- Fixture: a three-byte all-zero status list owned by `issuerA`. -/
def slRecord0 : StatusList :=
  { version := 0, issuer_did := issuerA, list_nonce := List.replicate 16 0,
    bitmap := [0, 0, 0] }

/-- Fixture: a registry holding only `slRecord0`. -/
def regSL : Registry :=
  { dids := [], statusLists := [(slId0, slRecord0)], schemas := [] }

/-- The all-zero identifier encodes to 32 `'1'` characters.  `Nat.digits`
is defined by well-founded recursion, so this evaluation is done through
`Nat.digits_zero` rather than by reduction. -/
theorem b58encode_slId0 : b58encode slId0 = slWire0 := by
  have h0 : Nat.ofDigits 256 (List.reverse slId0) = 0 := rfl
  rw [b58encode, h0, Nat.digits_zero]
  rfl

theorem b58decode_slWire0 : b58decode slWire0 = some slId0 := by
  rw [← b58encode_slId0]
  refine b58_roundtrip slId0 ?_
  intro x hx
  have hx0 : x = 0 := List.eq_of_mem_replicate hx
  omega

theorem decode_status_list_slWire0 : decode_status_list_id slWire0 = .ok slId0 := by
  have hpre : STATUSLIST_TEXT_TAG.isPrefixOf slWire0 = false := rfl
  have hpre2 : STATUSLIST_TEXT_TAG_ALT.isPrefixOf slWire0 = false := rfl
  rw [decode_status_list_id]
  simp only [hpre, hpre2, Bool.false_eq_true, if_false, b58decode_slWire0]
  rfl

theorem decode_did_slWire0 : decode_did_id slWire0 = .ok slId0 := by
  have hpre : DID_TEXT_TAG.isPrefixOf slWire0 = false := rfl
  rw [decode_did_id]
  simp only [hpre, Bool.false_eq_true, if_false, b58decode_slWire0]
  rfl

/-- Success shape of `set_status`, used by the C7 theorem at both the
quantified and the concrete inputs. -/
theorem set_status_ok (env : Env) (s : Registry) (wire issuer : Bytes)
    (idx : Nat) (rev : Bool) (sig : Bytes) (lid : Bytes) (record : StatusList)
    (hdec : decode_status_list_id wire = .ok lid)
    (hrec : lookupMap s.statusLists lid = some record)
    (hiss : record.issuer_did = issuer)
    (hsize : record.bitmap.length * 8 ≤ USIZE_MAX)
    (hidx : idx < record.bitmap.length * 8) :
    applyCommand env s (.setStatus wire issuer idx rev sig) =
      ({ s with statusLists := insertMap s.statusLists lid
                    ({ record with
                       bitmap := setStatusBitmap record.bitmap idx rev,
                       version := u64_saturating_add record.version 1 }) },
        .ok (.StatusUpdated (status_list_string_from_id lid) idx rev)) := by
  simp only [applyCommand, set_status, hdec]
  rw [tryMutateMap, hrec]
  simp only []
  rw [if_neg (by simp [hiss]), if_neg (Nat.not_lt.mpr hsize),
    if_neg (fun hc => hc hidx)]
  rfl

/-- C7: `set_status` succeeds only when the list exists, the supplied
issuer matches the stored one, and the index is inside the bitmap; on
success it writes byte `index / 8` with mask `1 <<< (index % 8)`
(`setStatusBitmap`), setting or clearing exactly bit `index` and no other;
on the three-byte zero bitmap, index 9 yields `[0x00, 0x02, 0x00]` and
index 24 fails with `StatusIndexOutOfBounds`. -/
theorem set_status_correct (env : Env) (s : Registry)
    (wire issuer : Bytes) (idx : Nat) (rev : Bool) (sig : Bytes) :
    (∀ s' ev, applyCommand env s (.setStatus wire issuer idx rev sig) = (s', .ok ev) →
      ∃ lid record, decode_status_list_id wire = .ok lid ∧
        lookupMap s.statusLists lid = some record ∧
        record.issuer_did = issuer ∧ idx < record.bitmap.length * 8) ∧
    (∀ lid record, decode_status_list_id wire = .ok lid →
      lookupMap s.statusLists lid = some record →
      record.issuer_did = issuer →
      record.bitmap.length * 8 ≤ USIZE_MAX →
      idx < record.bitmap.length * 8 →
      applyCommand env s (.setStatus wire issuer idx rev sig) =
        ({ s with statusLists := insertMap s.statusLists lid
                      ({ record with
                         bitmap := setStatusBitmap record.bitmap idx rev,
                         version := u64_saturating_add record.version 1 }) },
          .ok (.StatusUpdated (status_list_string_from_id lid) idx rev)) ∧
      bitGet (setStatusBitmap record.bitmap idx rev) idx = rev ∧
      (∀ j, j ≠ idx →
        bitGet (setStatusBitmap record.bitmap idx rev) j = bitGet record.bitmap j)) ∧
    (applyCommand envT regSL (.setStatus slWire0 issuerA 9 true []) =
      ({ regSL with statusLists := [(slId0,
          { version := 1, issuer_did := issuerA, list_nonce := List.replicate 16 0,
            bitmap := [0, 2, 0] })] },
        .ok (.StatusUpdated (status_list_string_from_id slId0) 9 true))) ∧
    (applyCommand envT regSL (.setStatus slWire0 issuerA 24 true []) =
      (regSL, .error .StatusIndexOutOfBounds)) := by
  refine ⟨?_, ?_, ?_, ?_⟩
  · intro s' ev h
    simp only [applyCommand, set_status] at h
    split at h
    · simp at h
    · rename_i lid hdec
      split at h
      · simp at h
      · rename_i sls hmut
        rw [tryMutateMap] at hmut
        split at hmut
        · simp at hmut
        · rename_i v hclos
          split at hclos
          · simp at hclos
          · rename_i record hlook
            split at hclos
            · simp at hclos
            · rename_i hiss
              split at hclos
              · simp at hclos
              · rename_i hsize
                split at hclos
                · simp at hclos
                · rename_i hidx
                  exact ⟨lid, record, hdec, hlook, not_not.mp hiss, not_not.mp hidx⟩
  · intro lid record hdec hrec hiss hsize hidx
    exact ⟨set_status_ok env s wire issuer idx rev sig lid record hdec hrec hiss hsize hidx,
      bitGet_setStatusBitmap_eq hidx rev,
      fun j hne => bitGet_setStatusBitmap_ne hidx hne rev⟩
  · exact set_status_ok envT regSL slWire0 issuerA 9 true [] slId0 slRecord0
      decode_status_list_slWire0 rfl rfl (by decide) (by decide)
  · simp only [applyCommand, set_status, decode_status_list_slWire0]
    rw [tryMutateMap]
    have hlook : lookupMap regSL.statusLists slId0 = some slRecord0 := rfl
    rw [hlook]
    simp only []
    rw [if_neg (by decide), if_neg (by decide), if_pos (by decide)]

/-- C7 witness: flipping bit 9 of the three-byte zero bitmap through the
theorem's success case. -/
theorem set_status_correct_witness :
    applyCommand envT regSL (.setStatus slWire0 issuerA 9 true []) =
      ({ regSL with statusLists := insertMap regSL.statusLists slId0
                        ({ slRecord0 with
                           bitmap := setStatusBitmap slRecord0.bitmap 9 true,
                           version := u64_saturating_add slRecord0.version 1 }) },
        .ok (.StatusUpdated (status_list_string_from_id slId0) 9 true)) :=
  ((set_status_correct envT regSL slWire0 issuerA 9 true []).2.1 slId0 slRecord0
    decode_status_list_slWire0 rfl rfl (by decide) (by decide)).1

/-- C9: for every 32-byte identifier, decoding the textual encoding yields
the identifier back, for all three codecs, and each decoder equally accepts
the raw base58 form without its textual tag. -/
theorem textual_roundtrip (id : Bytes) (hlen : id.length = 32)
    (hb : ∀ x ∈ id, x < 256) :
    decode_did_id (did_string_from_did_id id) = .ok id ∧
    decode_did_id (b58encode id) = .ok id ∧
    decode_status_list_id (status_list_string_from_id id) = .ok id ∧
    decode_status_list_id (b58encode id) = .ok id ∧
    decode_schema_id (schema_string_from_schema_id id) = .ok id ∧
    decode_schema_id (b58encode id) = .ok id := by
  have henc := b58_roundtrip id hb
  have hdid_t : DID_TEXT_TAG.isPrefixOf (DID_TEXT_TAG ++ b58encode id) = true :=
    List.isPrefixOf_iff_prefix.mpr (List.prefix_append _ _)
  have hsl_t : STATUSLIST_TEXT_TAG.isPrefixOf (STATUSLIST_TEXT_TAG ++ b58encode id) = true :=
    List.isPrefixOf_iff_prefix.mpr (List.prefix_append _ _)
  have hsch_t : SCHEMA_TEXT_TAG.isPrefixOf (SCHEMA_TEXT_TAG ++ b58encode id) = true :=
    List.isPrefixOf_iff_prefix.mpr (List.prefix_append _ _)
  have hdid_f : DID_TEXT_TAG.isPrefixOf (b58encode id) = false :=
    tag_not_leading DID_TEXT_TAG (by decide) id
  have hsl_f : STATUSLIST_TEXT_TAG.isPrefixOf (b58encode id) = false :=
    tag_not_leading STATUSLIST_TEXT_TAG (by decide) id
  have hsl_f2 : STATUSLIST_TEXT_TAG_ALT.isPrefixOf (b58encode id) = false :=
    tag_not_leading STATUSLIST_TEXT_TAG_ALT (by decide) id
  have hsch_f : SCHEMA_TEXT_TAG.isPrefixOf (b58encode id) = false :=
    tag_not_leading SCHEMA_TEXT_TAG (by decide) id
  refine ⟨?_, ?_, ?_, ?_, ?_, ?_⟩
  · rw [did_string_from_did_id, decode_did_id]
    simp only [hdid_t, if_true, List.drop_left, henc]
    simp [hlen]
  · rw [decode_did_id]
    simp only [hdid_f, Bool.false_eq_true, if_false, henc]
    simp [hlen]
  · rw [status_list_string_from_id, decode_status_list_id]
    simp only [hsl_t, if_true, List.drop_left, henc]
    simp [hlen]
  · rw [decode_status_list_id]
    simp only [hsl_f, hsl_f2, Bool.false_eq_true, if_false, henc]
    simp [hlen]
  · rw [schema_string_from_schema_id, decode_schema_id]
    simp only [hsch_t, if_true, List.drop_left, henc]
    simp [hlen]
  · rw [decode_schema_id]
    simp only [hsch_f, Bool.false_eq_true, if_false, henc]
    simp [hlen]

/-- C9 witness: the all-zero identifier round trips through the DID codec. -/
theorem textual_roundtrip_witness :
    decode_did_id (did_string_from_did_id slId0) = .ok slId0 :=
  (textual_roundtrip slId0 (by decide) (fun x hx => by
    have hx0 : x = 0 := List.eq_of_mem_replicate hx
    omega)).1

/-! ## Key-list mutation characterizations -/

theorem revokeFirstKey_not_found {keys : List DidKey} {pk : Bytes}
    (h : ∀ k ∈ keys, k.public_key ≠ pk) :
    revokeFirstKey keys pk = .error .KeyNotFound := by
  induction keys with
  | nil => rfl
  | cons k t ih =>
    simp [revokeFirstKey, h k (List.mem_cons_self k t),
      ih (fun x hx => h x (List.mem_cons_of_mem k hx))]

theorem revokeFirstKey_found {pre : List DidKey} {old : DidKey} {post : List DidKey}
    {pk : Bytes} (hpre : ∀ k ∈ pre, k.public_key ≠ pk) (hold : old.public_key = pk) :
    revokeFirstKey (pre ++ old :: post) pk =
      if old.revoked then .error .KeyAlreadyRevoked
      else .ok (pre ++ { old with revoked := true } :: post) := by
  induction pre with
  | nil =>
    by_cases hrev : old.revoked <;> simp [revokeFirstKey, hold, hrev]
  | cons k t ih =>
    have hk : k.public_key ≠ pk := hpre k (List.mem_cons_self k t)
    have ih2 := ih (fun x hx => hpre x (List.mem_cons_of_mem k hx))
    by_cases hrev : old.revoked <;> simp [revokeFirstKey, hk, ih2, hrev]

/-- C6: a successful `rotate_key` requires `new_pk` fresh
(`KeyAlreadyExists` otherwise), `old_pk` present (`KeyNotFound`) and not
revoked (`KeyAlreadyRevoked`); afterwards the old key is marked revoked in
place and a key `{new_pk, roles, revoked := false}` is appended with
exactly the supplied roles — no `Authentication` role is added. -/
theorem rotate_key_correct (env : Env) (s : Registry)
    (wire old_pk new_pk : Bytes) (roles : List KeyRole) (sig : Bytes)
    (id : Bytes) (details : DidDetails)
    (hdec : decode_did_id wire = .ok id)
    (hver : verify_did_signature env s.dids id sig
      (DID_ROTATE_KEY_TAG ++ scaleBytes wire ++ scaleBytes old_pk ++
        scaleBytes new_pk ++ scaleRoles roles) = .ok ())
    (hrec : lookupMap s.dids id = some details)
    (hact : details.deactivated = false) :
    ((∃ k ∈ details.keys, k.public_key = new_pk) →
      applyCommand env s (.rotateKey wire old_pk new_pk roles sig) =
        (s, .error .KeyAlreadyExists)) ∧
    ((∀ k ∈ details.keys, k.public_key ≠ new_pk) →
      (∀ k ∈ details.keys, k.public_key ≠ old_pk) →
      applyCommand env s (.rotateKey wire old_pk new_pk roles sig) =
        (s, .error .KeyNotFound)) ∧
    (∀ pre old post, details.keys = pre ++ old :: post →
      (∀ k ∈ pre, k.public_key ≠ old_pk) → old.public_key = old_pk →
      (∀ k ∈ details.keys, k.public_key ≠ new_pk) →
      ((old.revoked = true →
        applyCommand env s (.rotateKey wire old_pk new_pk roles sig) =
          (s, .error .KeyAlreadyRevoked)) ∧
       (old.revoked = false →
        applyCommand env s (.rotateKey wire old_pk new_pk roles sig) =
          ({ s with dids := insertMap s.dids id
                        ({ details with
                           keys := pre ++ { old with revoked := true } ::
                             (post ++ [{ public_key := new_pk, roles := roles,
                                         revoked := false }]),
                           version := u64_saturating_add details.version 1 }) },
            .ok (.KeyRotated (did_string_from_did_id id) old_pk new_pk))))) := by
  refine ⟨?_, ?_, ?_⟩
  · intro hex
    have hany : (details.keys.any fun key => key.public_key == new_pk) = true := by
      rw [List.any_eq_true]
      obtain ⟨k, hk, hpk⟩ := hex
      exact ⟨k, hk, by simp [hpk]⟩
    simp only [applyCommand, rotate_key, hdec, hver]
    rw [tryMutateMap, hrec]
    simp only []
    rw [if_neg (by simp [hact]), if_pos hany]
  · intro hnew hold
    have hany : (details.keys.any fun key => key.public_key == new_pk) = false := by
      rw [List.any_eq_false]
      intro k hk
      simp [hnew k hk]
    simp only [applyCommand, rotate_key, hdec, hver]
    rw [tryMutateMap, hrec]
    simp only []
    rw [if_neg (by simp [hact]), if_neg (by simp [hany]),
      revokeFirstKey_not_found hold]
  · intro pre old post hkeys hpre hold hnew
    have hany : (details.keys.any fun key => key.public_key == new_pk) = false := by
      rw [List.any_eq_false]
      intro k hk
      simp [hnew k hk]
    constructor
    · intro hrev
      simp only [applyCommand, rotate_key, hdec, hver]
      rw [tryMutateMap, hrec]
      simp only []
      rw [if_neg (by simp [hact]), if_neg (by simp [hany]), hkeys,
        revokeFirstKey_found hpre hold, if_pos hrev]
    · intro hrev
      simp only [applyCommand, rotate_key, hdec, hver]
      rw [tryMutateMap, hrec]
      simp only []
      rw [if_neg (by simp [hact]), if_neg (by simp [hany]), hkeys,
        revokeFirstKey_found hpre hold, if_neg (by simp [hrev])]
      simp [List.append_assoc]

/-- Fixture: the initial key of the test DID. -/
def key1 : DidKey := { public_key := pk1, roles := [.Authentication], revoked := false }

/-- Fixture: a live DID record with the single key `key1`. -/
def didDetails1 : DidDetails :=
  { version := 0, deactivated := false, keys := [key1], services := [], metadata := [] }

/-- Fixture: a registry holding `didDetails1` at the all-zero id. -/
def regDid : Registry :=
  { dids := [(slId0, didDetails1)], statusLists := [], schemas := [] }

theorem verify_regDid (payload : Bytes) :
    verify_did_signature envT regDid.dids slId0 sig1 payload = .ok () := by
  have hlook : lookupMap regDid.dids slId0 = some didDetails1 := rfl
  have hsig : sig1.length = SIG_LEN := by simp [sig1]
  have hval : keyValidates envT sig1 payload key1 = true := by
    simp [keyValidates, key1, pk1, envT]
  rw [verify_did_signature, hlook]
  simp [hsig, didDetails1, List.find?, hval]

/-- C6 witness: rotating the only key of the test DID revokes it in place
and appends the new key with exactly the supplied roles. -/
theorem rotate_key_correct_witness :
    applyCommand envT regDid (.rotateKey slWire0 pk1 [5] [.KeyAgreement] sig1) =
      ({ regDid with dids := insertMap regDid.dids slId0
                         ({ didDetails1 with
                            keys := [] ++ { key1 with revoked := true } ::
                              ([] ++ [{ public_key := [5], roles := [.KeyAgreement],
                                        revoked := false }]),
                            version := u64_saturating_add didDetails1.version 1 }) },
        .ok (.KeyRotated (did_string_from_did_id slId0) pk1 [5])) :=
  ((rotate_key_correct envT regDid slWire0 pk1 [5] [.KeyAgreement] sig1 slId0 didDetails1
      decode_did_slWire0 (verify_regDid _) rfl rfl).2.2 [] key1 []
      rfl (by simp) rfl (by decide)).2 rfl

/-- Failure shape of `verify_did_signature`: with the DID present and the
signature well-sized, no validating key means `InvalidSignature`. -/
theorem verify_did_signature_fails (env : Env) (dids : List (Bytes × DidDetails))
    (id sig payload : Bytes) (details : DidDetails)
    (hrec : lookupMap dids id = some details)
    (hsig : sig.length = SIG_LEN)
    (hnone : ∀ k ∈ details.keys, keyValidates env sig payload k = false) :
    verify_did_signature env dids id sig payload = .error .InvalidSignature := by
  have hfind : details.keys.find? (keyValidates env sig payload) = none := by
    rw [List.find?_eq_none]
    intro k hk
    simp [hnone k hk]
  rw [verify_did_signature, hrec]
  dsimp only
  rw [if_neg (by simp [hsig]), hfind]
  rfl

/-- C2: for every DID-registry command other than `create_did`, if the
supplied (well-sized) signature does not validate under any key of the
target DID, the command fails with `InvalidSignature` and does not mutate;
and `verify_did_signature` succeeds exactly when some stored key validates
(`find?` scans the keys in insertion order and stops at the first
validating one). -/
theorem keyset_authorization (env : Env) (s : Registry) (c : Command)
    (wire id : Bytes) (details : DidDetails)
    (htarget : c.didTarget = some wire)
    (hdec : decode_did_id wire = .ok id)
    (hrec : lookupMap s.dids id = some details)
    (hsig : c.didSig.length = SIG_LEN)
    (hnone : ∀ k ∈ details.keys,
      keyValidates env c.didSig c.canonicalPayload k = false) :
    applyCommand env s c = (s, .error .InvalidSignature) ∧
    (∀ sig payload, sig.length = SIG_LEN →
      (verify_did_signature env s.dids id sig payload = .ok () ↔
        ∃ k ∈ details.keys, keyValidates env sig payload k = true)) := by
  constructor
  · have hv := verify_did_signature_fails env s.dids id c.didSig c.canonicalPayload
      details hrec hsig hnone
    cases c with
    | createDid pk sg => exact absurd htarget (by simp [Command.didTarget])
    | createStatusList a b l d2 => exact absurd htarget (by simp [Command.didTarget])
    | setStatus a b i r d2 => exact absurd htarget (by simp [Command.didTarget])
    | registerSchema a b c2 d2 => exact absurd htarget (by simp [Command.didTarget])
    | deprecateSchema a b d2 => exact absurd htarget (by simp [Command.didTarget])
    | addKey did pk roles sg =>
      simp only [Command.didTarget] at htarget
      injection htarget with hw
      subst hw
      simp only [Command.didSig, Command.canonicalPayload] at hv
      simp only [applyCommand, add_key, hdec, hv]
    | revokeKey did pk sg =>
      simp only [Command.didTarget] at htarget
      injection htarget with hw
      subst hw
      simp only [Command.didSig, Command.canonicalPayload] at hv
      simp only [applyCommand, revoke_key, hdec, hv]
    | deactivateDid did sg =>
      simp only [Command.didTarget] at htarget
      injection htarget with hw
      subst hw
      simp only [Command.didSig, Command.canonicalPayload] at hv
      simp only [applyCommand, deactivate_did, hdec, hv]
    | addService did service sg =>
      simp only [Command.didTarget] at htarget
      injection htarget with hw
      subst hw
      simp only [Command.didSig, Command.canonicalPayload] at hv
      simp only [applyCommand, add_service, hdec, hv]
    | removeService did sid sg =>
      simp only [Command.didTarget] at htarget
      injection htarget with hw
      subst hw
      simp only [Command.didSig, Command.canonicalPayload] at hv
      simp only [applyCommand, remove_service, hdec, hv]
    | setMetadata did entry sg =>
      simp only [Command.didTarget] at htarget
      injection htarget with hw
      subst hw
      simp only [Command.didSig, Command.canonicalPayload] at hv
      simp only [applyCommand, set_metadata, hdec, hv]
    | removeMetadata did key sg =>
      simp only [Command.didTarget] at htarget
      injection htarget with hw
      subst hw
      simp only [Command.didSig, Command.canonicalPayload] at hv
      simp only [applyCommand, remove_metadata, hdec, hv]
    | rotateKey did opk npk roles sg =>
      simp only [Command.didTarget] at htarget
      injection htarget with hw
      subst hw
      simp only [Command.didSig, Command.canonicalPayload] at hv
      simp only [applyCommand, rotate_key, hdec, hv]
    | updateRoles did pk roles sg =>
      simp only [Command.didTarget] at htarget
      injection htarget with hw
      subst hw
      simp only [Command.didSig, Command.canonicalPayload] at hv
      simp only [applyCommand, update_roles, hdec, hv]
  · intro sig payload hlen
    rw [verify_did_signature, hrec]
    dsimp only
    rw [if_neg (by simp [hlen])]
    by_cases hf : (details.keys.find? (keyValidates env sig payload)).isSome = true
    · rw [if_pos hf]
      rw [List.find?_isSome] at hf
      obtain ⟨k, hk, hp⟩ := hf
      exact ⟨fun _ => ⟨k, hk, hp⟩, fun _ => rfl⟩
    · rw [if_neg hf]
      constructor
      · intro hcon
        exact absurd hcon (by simp)
      · intro hex
        obtain ⟨k, hk, hp⟩ := hex
        exact absurd (List.find?_isSome.mpr ⟨k, hk, hp⟩) hf

/-- C2 witness: with the rejecting verifier, `deactivate_did` on the test
DID fails with `InvalidSignature` and leaves the registry unchanged. -/
theorem keyset_authorization_witness :
    applyCommand envF regDid (.deactivateDid slWire0 sig1) =
      (regDid, .error .InvalidSignature) :=
  (keyset_authorization envF regDid (.deactivateDid slWire0 sig1) slWire0 slId0
    didDetails1 rfl decode_did_slWire0 rfl (by simp [Command.didSig, sig1])
    (by
      intro k hk
      simp only [didDetails1] at hk
      rw [List.mem_singleton] at hk
      subst hk
      simp [keyValidates, envF])).1

/-- A `try_mutate` whose closure rejects deactivated records cannot change
the stored record of a deactivated DID. -/
theorem tryMutateMap_lookup_preserved {m : List (Bytes × DidDetails)} {k : Bytes}
    {f : Option DidDetails → Except Err DidDetails} {m' : List (Bytes × DidDetails)}
    (hok : tryMutateMap m k f = .ok m')
    (hdead : ∀ d, lookupMap m k = some d → d.deactivated = true →
      ∃ e, f (some d) = .error e)
    {id : Bytes} {details : DidDetails}
    (hrec : lookupMap m id = some details) (hdeact : details.deactivated = true) :
    lookupMap m' id = some details := by
  rw [tryMutateMap] at hok
  split at hok
  · exact absurd hok (by simp)
  · rename_i v hv
    injection hok with hok
    subst hok
    by_cases hk : k = id
    · subst hk
      obtain ⟨e, he⟩ := hdead details hrec hdeact
      rw [hrec, he] at hv
      exact absurd hv (by simp)
    · rw [lookupMap_insertMap_ne _ _ hk]
      exact hrec

/-- C3: a mutation command targeting a deactivated DID (with a verifying
signature) fails with `DidDeactivated`, and the stored record of a
deactivated DID is preserved by every command, so `deactivated = true` is
absorbing. -/
theorem deactivated_absorbing (env : Env) (s : Registry) (c : Command) :
    (∀ wire id details, c.didTarget = some wire →
      decode_did_id wire = .ok id →
      verify_did_signature env s.dids id c.didSig c.canonicalPayload = .ok () →
      lookupMap s.dids id = some details →
      details.deactivated = true →
      applyCommand env s c = (s, .error .DidDeactivated)) ∧
    (∀ id details, lookupMap s.dids id = some details →
      details.deactivated = true →
      lookupMap (applyCommand env s c).1.dids id = some details) := by
  constructor
  · intro wire id details htarget hdec hver hrec hdeact
    cases c with
    | createDid pk sg => exact absurd htarget (by simp [Command.didTarget])
    | createStatusList a b l d2 => exact absurd htarget (by simp [Command.didTarget])
    | setStatus a b i r d2 => exact absurd htarget (by simp [Command.didTarget])
    | registerSchema a b c2 d2 => exact absurd htarget (by simp [Command.didTarget])
    | deprecateSchema a b d2 => exact absurd htarget (by simp [Command.didTarget])
    | addKey did pk roles sg =>
      simp only [Command.didTarget] at htarget
      injection htarget with hw
      subst hw
      simp only [Command.didSig, Command.canonicalPayload] at hver
      simp only [applyCommand, add_key, hdec, hver]
      rw [tryMutateMap, hrec]
      dsimp only
      rw [if_pos hdeact]
    | revokeKey did pk sg =>
      simp only [Command.didTarget] at htarget
      injection htarget with hw
      subst hw
      simp only [Command.didSig, Command.canonicalPayload] at hver
      simp only [applyCommand, revoke_key, hdec, hver]
      rw [tryMutateMap, hrec]
      dsimp only
      rw [if_pos hdeact]
    | deactivateDid did sg =>
      simp only [Command.didTarget] at htarget
      injection htarget with hw
      subst hw
      simp only [Command.didSig, Command.canonicalPayload] at hver
      simp only [applyCommand, deactivate_did, hdec, hver]
      rw [tryMutateMap, hrec]
      dsimp only
      rw [if_pos hdeact]
    | addService did service sg =>
      simp only [Command.didTarget] at htarget
      injection htarget with hw
      subst hw
      simp only [Command.didSig, Command.canonicalPayload] at hver
      simp only [applyCommand, add_service, hdec, hver]
      rw [tryMutateMap, hrec]
      dsimp only
      rw [if_pos hdeact]
    | removeService did sid sg =>
      simp only [Command.didTarget] at htarget
      injection htarget with hw
      subst hw
      simp only [Command.didSig, Command.canonicalPayload] at hver
      simp only [applyCommand, remove_service, hdec, hver]
      rw [tryMutateMap, hrec]
      dsimp only
      rw [if_pos hdeact]
    | setMetadata did entry sg =>
      simp only [Command.didTarget] at htarget
      injection htarget with hw
      subst hw
      simp only [Command.didSig, Command.canonicalPayload] at hver
      simp only [applyCommand, set_metadata, hdec, hver]
      rw [tryMutateMap, hrec]
      dsimp only
      rw [if_pos hdeact]
    | removeMetadata did key sg =>
      simp only [Command.didTarget] at htarget
      injection htarget with hw
      subst hw
      simp only [Command.didSig, Command.canonicalPayload] at hver
      simp only [applyCommand, remove_metadata, hdec, hver]
      rw [tryMutateMap, hrec]
      dsimp only
      rw [if_pos hdeact]
    | rotateKey did opk npk roles sg =>
      simp only [Command.didTarget] at htarget
      injection htarget with hw
      subst hw
      simp only [Command.didSig, Command.canonicalPayload] at hver
      simp only [applyCommand, rotate_key, hdec, hver]
      rw [tryMutateMap, hrec]
      dsimp only
      rw [if_pos hdeact]
    | updateRoles did pk roles sg =>
      simp only [Command.didTarget] at htarget
      injection htarget with hw
      subst hw
      simp only [Command.didSig, Command.canonicalPayload] at hver
      simp only [applyCommand, update_roles, hdec, hver]
      rw [tryMutateMap, hrec]
      dsimp only
      rw [if_pos hdeact]
  · intro id details hrec hdeact
    cases c with
    | createDid pk sg =>
      simp only [applyCommand, create_did]
      split
      · exact hrec
      · split
        · exact hrec
        · by_cases hk : did_id_from_public_key env pk = id
          · exfalso
            have hnone' : ¬ (lookupMap s.dids (did_id_from_public_key env pk)).isSome = true := by
              assumption
            rw [hk, hrec] at hnone'
            exact hnone' rfl
          · dsimp only
            rw [lookupMap_insertMap_ne _ _ hk]
            exact hrec
    | createStatusList a b l d2 =>
      simp only [applyCommand, create_status_list]
      repeat' split
      all_goals exact hrec
    | setStatus a b i r d2 =>
      simp only [applyCommand, set_status]
      repeat' split
      all_goals exact hrec
    | registerSchema a b c2 d2 =>
      simp only [applyCommand, register_schema]
      repeat' split
      all_goals exact hrec
    | deprecateSchema a b d2 =>
      simp only [applyCommand, deprecate_schema]
      repeat' split
      all_goals exact hrec
    | addKey did pk roles sg =>
      simp only [applyCommand, add_key]
      repeat' split
      any_goals exact hrec
      rename_i dids' hmut
      exact tryMutateMap_lookup_preserved hmut
        (fun d hd hdd => ⟨.DidDeactivated, by simp [hdd]⟩) hrec hdeact
    | revokeKey did pk sg =>
      simp only [applyCommand, revoke_key]
      repeat' split
      any_goals exact hrec
      rename_i dids' hmut
      exact tryMutateMap_lookup_preserved hmut
        (fun d hd hdd => ⟨.DidDeactivated, by simp [hdd]⟩) hrec hdeact
    | deactivateDid did sg =>
      simp only [applyCommand, deactivate_did]
      repeat' split
      any_goals exact hrec
      rename_i dids' hmut
      exact tryMutateMap_lookup_preserved hmut
        (fun d hd hdd => ⟨.DidDeactivated, by simp [hdd]⟩) hrec hdeact
    | addService did service sg =>
      simp only [applyCommand, add_service]
      repeat' split
      any_goals exact hrec
      rename_i dids' hmut
      exact tryMutateMap_lookup_preserved hmut
        (fun d hd hdd => ⟨.DidDeactivated, by simp [hdd]⟩) hrec hdeact
    | removeService did sid sg =>
      simp only [applyCommand, remove_service]
      repeat' split
      any_goals exact hrec
      rename_i dids' hmut
      exact tryMutateMap_lookup_preserved hmut
        (fun d hd hdd => ⟨.DidDeactivated, by simp [hdd]⟩) hrec hdeact
    | setMetadata did entry sg =>
      simp only [applyCommand, set_metadata]
      repeat' split
      any_goals exact hrec
      rename_i dids' hmut
      exact tryMutateMap_lookup_preserved hmut
        (fun d hd hdd => ⟨.DidDeactivated, by simp [hdd]⟩) hrec hdeact
    | removeMetadata did key sg =>
      simp only [applyCommand, remove_metadata]
      repeat' split
      any_goals exact hrec
      rename_i dids' hmut
      exact tryMutateMap_lookup_preserved hmut
        (fun d hd hdd => ⟨.DidDeactivated, by simp [hdd]⟩) hrec hdeact
    | rotateKey did opk npk roles sg =>
      simp only [applyCommand, rotate_key]
      repeat' split
      any_goals exact hrec
      rename_i dids' hmut
      exact tryMutateMap_lookup_preserved hmut
        (fun d hd hdd => ⟨.DidDeactivated, by simp [hdd]⟩) hrec hdeact
    | updateRoles did pk roles sg =>
      simp only [applyCommand, update_roles]
      repeat' split
      any_goals exact hrec
      rename_i dids' hmut
      exact tryMutateMap_lookup_preserved hmut
        (fun d hd hdd => ⟨.DidDeactivated, by simp [hdd]⟩) hrec hdeact

/-- Fixture: the test DID record, deactivated. -/
def didDetailsDead : DidDetails := { didDetails1 with deactivated := true }

/-- Fixture: a registry holding the deactivated record. -/
def regDead : Registry :=
  { dids := [(slId0, didDetailsDead)], statusLists := [], schemas := [] }

theorem verify_regDead (payload : Bytes) :
    verify_did_signature envT regDead.dids slId0 sig1 payload = .ok () := by
  have hlook : lookupMap regDead.dids slId0 = some didDetailsDead := rfl
  have hsig : sig1.length = SIG_LEN := by simp [sig1]
  have hval : keyValidates envT sig1 payload key1 = true := by
    simp [keyValidates, key1, pk1, envT]
  rw [verify_did_signature, hlook]
  dsimp only
  simp [hsig, didDetailsDead, didDetails1, List.find?, hval]

/-- C3 witness: deactivating the already-deactivated test DID (with a
verifying signature) fails with `DidDeactivated`. -/
theorem deactivated_absorbing_witness :
    applyCommand envT regDead (.deactivateDid slWire0 sig1) =
      (regDead, .error .DidDeactivated) :=
  (deactivated_absorbing envT regDead (.deactivateDid slWire0 sig1)).1
    slWire0 slId0 didDetailsDead rfl decode_did_slWire0 (verify_regDead _) rfl rfl

/-! ## Version accounting helpers -/

theorem not_isSome_none {α} {o : Option α} (h : ¬ o.isSome = true) : o = none := by
  cases o with
  | none => rfl
  | some x => exact absurd rfl h

theorem lookup_frame {α} {m m' : List (Bytes × α)} (hmm : m' = m) {id : Bytes}
    {d d' : α} (h1 : lookupMap m id = some d) (h2 : lookupMap m' id = some d') :
    d' = d := by
  subst hmm
  rw [h1] at h2
  injection h2 with h2
  exact h2.symm

theorem insert_fresh_lookup {α} {m : List (Bytes × α)} {k : Bytes} {v : α}
    (hnone : lookupMap m k = none) {id : Bytes} {d d' : α}
    (h1 : lookupMap m id = some d) (h2 : lookupMap (insertMap m k v) id = some d') :
    d' = d := by
  by_cases hk : k = id
  · subst hk
    rw [hnone] at h1
    exact absurd h1 (by simp)
  · rw [lookupMap_insertMap_ne _ _ hk, h1] at h2
    injection h2 with h2
    exact h2.symm

/-- A `try_mutate` whose closure bumps the version with `saturating_add 1`
either leaves a stored record alone or bumps its version exactly once. -/
theorem tryMutateMap_version_bump {α} (ver : α → Nat) {m : List (Bytes × α)}
    {k : Bytes} {f : Option α → Except Err α} {m' : List (Bytes × α)}
    (hok : tryMutateMap m k f = .ok m')
    (hbump : ∀ d v, f (some d) = .ok v → ver v = u64_saturating_add (ver d) 1) :
    ∀ id d d', lookupMap m id = some d → lookupMap m' id = some d' →
      d' = d ∨ ver d' = u64_saturating_add (ver d) 1 := by
  intro id d d' hd hd'
  rw [tryMutateMap] at hok
  split at hok
  · exact absurd hok (by simp)
  · rename_i v hv
    injection hok with hok
    subst hok
    by_cases hk : k = id
    · subst hk
      rw [lookupMap_insertMap_self] at hd'
      injection hd' with hd'
      subst hd'
      rw [hd] at hv
      right
      rw [hbump d v hv]
    · rw [lookupMap_insertMap_ne _ _ hk, hd] at hd'
      injection hd' with hd'
      exact Or.inl hd'.symm

theorem dids_version_bump (env : Env) (s : Registry) (c : Command) :
    ∀ id d d', lookupMap s.dids id = some d →
      lookupMap (applyCommand env s c).1.dids id = some d' →
      d' = d ∨ d'.version = u64_saturating_add d.version 1 := by
  cases c with
  | createDid pk sg =>
    intro id d d' h1 h2
    simp only [applyCommand, create_did] at h2
    split at h2
    · exact Or.inl (lookup_frame rfl h1 h2)
    · split at h2
      · exact Or.inl (lookup_frame rfl h1 h2)
      · exact Or.inl (insert_fresh_lookup (not_isSome_none (by assumption)) h1 h2)
  | addKey did pk roles sg =>
    intro id d d' h1 h2
    simp only [applyCommand, add_key] at h2
    split at h2
    · exact Or.inl (lookup_frame rfl h1 h2)
    · split at h2
      · exact Or.inl (lookup_frame rfl h1 h2)
      · split at h2
        · exact Or.inl (lookup_frame rfl h1 h2)
        · rename_i res hmut
          exact tryMutateMap_version_bump DidDetails.version hmut
            (by
              intro d0 v hv
              dsimp only at hv
              repeat' split at hv
              any_goals exact Except.noConfusion hv
              all_goals injection hv with hv2
              all_goals rw [← hv2])
            id d d' h1 h2
  | revokeKey did pk sg =>
    intro id d d' h1 h2
    simp only [applyCommand, revoke_key] at h2
    split at h2
    · exact Or.inl (lookup_frame rfl h1 h2)
    · split at h2
      · exact Or.inl (lookup_frame rfl h1 h2)
      · split at h2
        · exact Or.inl (lookup_frame rfl h1 h2)
        · rename_i res hmut
          exact tryMutateMap_version_bump DidDetails.version hmut
            (by
              intro d0 v hv
              dsimp only at hv
              repeat' split at hv
              any_goals exact Except.noConfusion hv
              all_goals injection hv with hv2
              all_goals rw [← hv2])
            id d d' h1 h2
  | deactivateDid did sg =>
    intro id d d' h1 h2
    simp only [applyCommand, deactivate_did] at h2
    split at h2
    · exact Or.inl (lookup_frame rfl h1 h2)
    · split at h2
      · exact Or.inl (lookup_frame rfl h1 h2)
      · split at h2
        · exact Or.inl (lookup_frame rfl h1 h2)
        · rename_i res hmut
          exact tryMutateMap_version_bump DidDetails.version hmut
            (by
              intro d0 v hv
              dsimp only at hv
              repeat' split at hv
              any_goals exact Except.noConfusion hv
              all_goals injection hv with hv2
              all_goals rw [← hv2])
            id d d' h1 h2
  | addService did service sg =>
    intro id d d' h1 h2
    simp only [applyCommand, add_service] at h2
    split at h2
    · exact Or.inl (lookup_frame rfl h1 h2)
    · split at h2
      · exact Or.inl (lookup_frame rfl h1 h2)
      · split at h2
        · exact Or.inl (lookup_frame rfl h1 h2)
        · rename_i res hmut
          exact tryMutateMap_version_bump DidDetails.version hmut
            (by
              intro d0 v hv
              dsimp only at hv
              repeat' split at hv
              any_goals exact Except.noConfusion hv
              all_goals injection hv with hv2
              all_goals rw [← hv2])
            id d d' h1 h2
  | removeService did sid sg =>
    intro id d d' h1 h2
    simp only [applyCommand, remove_service] at h2
    split at h2
    · exact Or.inl (lookup_frame rfl h1 h2)
    · split at h2
      · exact Or.inl (lookup_frame rfl h1 h2)
      · split at h2
        · exact Or.inl (lookup_frame rfl h1 h2)
        · rename_i res hmut
          exact tryMutateMap_version_bump DidDetails.version hmut
            (by
              intro d0 v hv
              dsimp only at hv
              repeat' split at hv
              any_goals exact Except.noConfusion hv
              all_goals injection hv with hv2
              all_goals rw [← hv2])
            id d d' h1 h2
  | setMetadata did entry sg =>
    intro id d d' h1 h2
    simp only [applyCommand, set_metadata] at h2
    split at h2
    · exact Or.inl (lookup_frame rfl h1 h2)
    · split at h2
      · exact Or.inl (lookup_frame rfl h1 h2)
      · split at h2
        · exact Or.inl (lookup_frame rfl h1 h2)
        · rename_i res hmut
          exact tryMutateMap_version_bump DidDetails.version hmut
            (by
              intro d0 v hv
              dsimp only at hv
              repeat' split at hv
              any_goals exact Except.noConfusion hv
              all_goals injection hv with hv2
              all_goals rw [← hv2])
            id d d' h1 h2
  | removeMetadata did key sg =>
    intro id d d' h1 h2
    simp only [applyCommand, remove_metadata] at h2
    split at h2
    · exact Or.inl (lookup_frame rfl h1 h2)
    · split at h2
      · exact Or.inl (lookup_frame rfl h1 h2)
      · split at h2
        · exact Or.inl (lookup_frame rfl h1 h2)
        · rename_i res hmut
          exact tryMutateMap_version_bump DidDetails.version hmut
            (by
              intro d0 v hv
              dsimp only at hv
              repeat' split at hv
              any_goals exact Except.noConfusion hv
              all_goals injection hv with hv2
              all_goals rw [← hv2])
            id d d' h1 h2
  | rotateKey did opk npk roles sg =>
    intro id d d' h1 h2
    simp only [applyCommand, rotate_key] at h2
    split at h2
    · exact Or.inl (lookup_frame rfl h1 h2)
    · split at h2
      · exact Or.inl (lookup_frame rfl h1 h2)
      · split at h2
        · exact Or.inl (lookup_frame rfl h1 h2)
        · rename_i res hmut
          exact tryMutateMap_version_bump DidDetails.version hmut
            (by
              intro d0 v hv
              dsimp only at hv
              repeat' split at hv
              any_goals exact Except.noConfusion hv
              all_goals injection hv with hv2
              all_goals rw [← hv2])
            id d d' h1 h2
  | updateRoles did pk roles sg =>
    intro id d d' h1 h2
    simp only [applyCommand, update_roles] at h2
    split at h2
    · exact Or.inl (lookup_frame rfl h1 h2)
    · split at h2
      · exact Or.inl (lookup_frame rfl h1 h2)
      · split at h2
        · exact Or.inl (lookup_frame rfl h1 h2)
        · rename_i res hmut
          exact tryMutateMap_version_bump DidDetails.version hmut
            (by
              intro d0 v hv
              dsimp only at hv
              repeat' split at hv
              any_goals exact Except.noConfusion hv
              all_goals injection hv with hv2
              all_goals rw [← hv2])
            id d d' h1 h2
  | createStatusList issuer nonce len sg =>
    intro id d d' h1 h2
    refine Or.inl (lookup_frame ?_ h1 h2)
    simp only [applyCommand, create_status_list]
    repeat' split
    all_goals rfl
  | setStatus lid issuer idx rev sg =>
    intro id d d' h1 h2
    refine Or.inl (lookup_frame ?_ h1 h2)
    simp only [applyCommand, set_status]
    repeat' split
    all_goals rfl
  | registerSchema json uri issuer sg =>
    intro id d d' h1 h2
    refine Or.inl (lookup_frame ?_ h1 h2)
    simp only [applyCommand, register_schema]
    repeat' split
    all_goals rfl
  | deprecateSchema sid issuer sg =>
    intro id d d' h1 h2
    refine Or.inl (lookup_frame ?_ h1 h2)
    simp only [applyCommand, deprecate_schema]
    repeat' split
    all_goals rfl

theorem statusLists_version_bump (env : Env) (s : Registry) (c : Command) :
    ∀ id d d', lookupMap s.statusLists id = some d →
      lookupMap (applyCommand env s c).1.statusLists id = some d' →
      d' = d ∨ d'.version = u64_saturating_add d.version 1 := by
  cases c with
  | createDid pk sg =>
    intro id d d' h1 h2
    refine Or.inl (lookup_frame ?_ h1 h2)
    simp only [applyCommand, create_did]
    repeat' split
    all_goals rfl
  | addKey did pk roles sg =>
    intro id d d' h1 h2
    refine Or.inl (lookup_frame ?_ h1 h2)
    simp only [applyCommand, add_key]
    repeat' split
    all_goals rfl
  | revokeKey did pk sg =>
    intro id d d' h1 h2
    refine Or.inl (lookup_frame ?_ h1 h2)
    simp only [applyCommand, revoke_key]
    repeat' split
    all_goals rfl
  | deactivateDid did sg =>
    intro id d d' h1 h2
    refine Or.inl (lookup_frame ?_ h1 h2)
    simp only [applyCommand, deactivate_did]
    repeat' split
    all_goals rfl
  | addService did service sg =>
    intro id d d' h1 h2
    refine Or.inl (lookup_frame ?_ h1 h2)
    simp only [applyCommand, add_service]
    repeat' split
    all_goals rfl
  | removeService did sid sg =>
    intro id d d' h1 h2
    refine Or.inl (lookup_frame ?_ h1 h2)
    simp only [applyCommand, remove_service]
    repeat' split
    all_goals rfl
  | setMetadata did entry sg =>
    intro id d d' h1 h2
    refine Or.inl (lookup_frame ?_ h1 h2)
    simp only [applyCommand, set_metadata]
    repeat' split
    all_goals rfl
  | removeMetadata did key sg =>
    intro id d d' h1 h2
    refine Or.inl (lookup_frame ?_ h1 h2)
    simp only [applyCommand, remove_metadata]
    repeat' split
    all_goals rfl
  | rotateKey did opk npk roles sg =>
    intro id d d' h1 h2
    refine Or.inl (lookup_frame ?_ h1 h2)
    simp only [applyCommand, rotate_key]
    repeat' split
    all_goals rfl
  | updateRoles did pk roles sg =>
    intro id d d' h1 h2
    refine Or.inl (lookup_frame ?_ h1 h2)
    simp only [applyCommand, update_roles]
    repeat' split
    all_goals rfl
  | createStatusList issuer nonce len sg =>
    intro id d d' h1 h2
    simp only [applyCommand, create_status_list] at h2
    split at h2
    · exact Or.inl (lookup_frame rfl h1 h2)
    · split at h2
      · exact Or.inl (lookup_frame rfl h1 h2)
      · split at h2
        · exact Or.inl (lookup_frame rfl h1 h2)
        · exact Or.inl (insert_fresh_lookup (not_isSome_none (by assumption)) h1 h2)
  | setStatus lid issuer idx rev sg =>
    intro id d d' h1 h2
    simp only [applyCommand, set_status] at h2
    split at h2
    · exact Or.inl (lookup_frame rfl h1 h2)
    · split at h2
      · exact Or.inl (lookup_frame rfl h1 h2)
      · rename_i res hmut
        exact tryMutateMap_version_bump StatusList.version hmut
          (by
            intro d0 v hv
            dsimp only at hv
            repeat' split at hv
            any_goals exact Except.noConfusion hv
            all_goals injection hv with hv2
            all_goals rw [← hv2])
          id d d' h1 h2
  | registerSchema json uri issuer sg =>
    intro id d d' h1 h2
    refine Or.inl (lookup_frame ?_ h1 h2)
    simp only [applyCommand, register_schema]
    repeat' split
    all_goals rfl
  | deprecateSchema sid issuer sg =>
    intro id d d' h1 h2
    refine Or.inl (lookup_frame ?_ h1 h2)
    simp only [applyCommand, deprecate_schema]
    repeat' split
    all_goals rfl

theorem schemas_version_bump (env : Env) (s : Registry) (c : Command) :
    ∀ id d d', lookupMap s.schemas id = some d →
      lookupMap (applyCommand env s c).1.schemas id = some d' →
      d' = d ∨ d'.version = u64_saturating_add d.version 1 := by
  cases c with
  | createDid pk sg =>
    intro id d d' h1 h2
    refine Or.inl (lookup_frame ?_ h1 h2)
    simp only [applyCommand, create_did]
    repeat' split
    all_goals rfl
  | addKey did pk roles sg =>
    intro id d d' h1 h2
    refine Or.inl (lookup_frame ?_ h1 h2)
    simp only [applyCommand, add_key]
    repeat' split
    all_goals rfl
  | revokeKey did pk sg =>
    intro id d d' h1 h2
    refine Or.inl (lookup_frame ?_ h1 h2)
    simp only [applyCommand, revoke_key]
    repeat' split
    all_goals rfl
  | deactivateDid did sg =>
    intro id d d' h1 h2
    refine Or.inl (lookup_frame ?_ h1 h2)
    simp only [applyCommand, deactivate_did]
    repeat' split
    all_goals rfl
  | addService did service sg =>
    intro id d d' h1 h2
    refine Or.inl (lookup_frame ?_ h1 h2)
    simp only [applyCommand, add_service]
    repeat' split
    all_goals rfl
  | removeService did sid sg =>
    intro id d d' h1 h2
    refine Or.inl (lookup_frame ?_ h1 h2)
    simp only [applyCommand, remove_service]
    repeat' split
    all_goals rfl
  | setMetadata did entry sg =>
    intro id d d' h1 h2
    refine Or.inl (lookup_frame ?_ h1 h2)
    simp only [applyCommand, set_metadata]
    repeat' split
    all_goals rfl
  | removeMetadata did key sg =>
    intro id d d' h1 h2
    refine Or.inl (lookup_frame ?_ h1 h2)
    simp only [applyCommand, remove_metadata]
    repeat' split
    all_goals rfl
  | rotateKey did opk npk roles sg =>
    intro id d d' h1 h2
    refine Or.inl (lookup_frame ?_ h1 h2)
    simp only [applyCommand, rotate_key]
    repeat' split
    all_goals rfl
  | updateRoles did pk roles sg =>
    intro id d d' h1 h2
    refine Or.inl (lookup_frame ?_ h1 h2)
    simp only [applyCommand, update_roles]
    repeat' split
    all_goals rfl
  | createStatusList issuer nonce len sg =>
    intro id d d' h1 h2
    refine Or.inl (lookup_frame ?_ h1 h2)
    simp only [applyCommand, create_status_list]
    repeat' split
    all_goals rfl
  | setStatus lid issuer idx rev sg =>
    intro id d d' h1 h2
    refine Or.inl (lookup_frame ?_ h1 h2)
    simp only [applyCommand, set_status]
    repeat' split
    all_goals rfl
  | registerSchema json uri issuer sg =>
    intro id d d' h1 h2
    simp only [applyCommand, register_schema] at h2
    split at h2
    · exact Or.inl (lookup_frame rfl h1 h2)
    · exact Or.inl (insert_fresh_lookup (not_isSome_none (by assumption)) h1 h2)
  | deprecateSchema sid issuer sg =>
    intro id d d' h1 h2
    simp only [applyCommand, deprecate_schema] at h2
    split at h2
    · exact Or.inl (lookup_frame rfl h1 h2)
    · split at h2
      · exact Or.inl (lookup_frame rfl h1 h2)
      · rename_i res hmut
        exact tryMutateMap_version_bump SchemaRecord.version hmut
          (by
            intro d0 v hv
            dsimp only at hv
            repeat' split at hv
            any_goals exact Except.noConfusion hv
            all_goals injection hv with hv2
            all_goals rw [← hv2])
          id d d' h1 h2

/-- C4: a successful command changes each stored entity either not at all
or with a version bump of exactly `saturating_add 1` (staying at
`u64::MAX` once reached); the read accessors return the state unchanged. -/
theorem version_increment (env : Env) (s : Registry) (c : Command) (ev : Event)
    (_h : (applyCommand env s c).2 = .ok ev) :
    (∀ id d d', lookupMap s.dids id = some d →
      lookupMap (applyCommand env s c).1.dids id = some d' →
      d' = d ∨ d'.version = u64_saturating_add d.version 1) ∧
    (∀ id r r', lookupMap s.statusLists id = some r →
      lookupMap (applyCommand env s c).1.statusLists id = some r' →
      r' = r ∨ r'.version = u64_saturating_add r.version 1) ∧
    (∀ id q q', lookupMap s.schemas id = some q →
      lookupMap (applyCommand env s c).1.schemas id = some q' →
      q' = q ∨ q'.version = u64_saturating_add q.version 1) ∧
    (∀ b, (get_did s b).1 = s ∧ (get_status_list s b).1 = s ∧ (get_schema s b).1 = s) :=
  ⟨dids_version_bump env s c, statusLists_version_bump env s c,
    schemas_version_bump env s c, fun _ => ⟨rfl, rfl, rfl⟩⟩

/-- Concrete success shape of deactivating the test DID, used by the C4
witness. -/
theorem deactivate_regDid_eq :
    applyCommand envT regDid (.deactivateDid slWire0 sig1) =
      ({ regDid with dids := insertMap regDid.dids slId0
                         ({ didDetails1 with
                            deactivated := true,
                            version := u64_saturating_add didDetails1.version 1 }) },
        .ok (.DidDeactivated (did_string_from_did_id slId0))) := by
  simp only [applyCommand, deactivate_did, decode_did_slWire0, verify_regDid]
  rw [tryMutateMap]
  have hlook : lookupMap regDid.dids slId0 = some didDetails1 := rfl
  rw [hlook]
  dsimp only
  rw [if_neg (by simp [didDetails1])]

/-- C4 witness: deactivating the test DID bumps its stored version by one. -/
theorem version_increment_witness :
    ({ didDetails1 with
       deactivated := true,
       version := u64_saturating_add didDetails1.version 1 } : DidDetails) = didDetails1 ∨
    ({ didDetails1 with
       deactivated := true,
       version := u64_saturating_add didDetails1.version 1 } : DidDetails).version =
      u64_saturating_add didDetails1.version 1 :=
  (version_increment envT regDid (.deactivateDid slWire0 sig1)
      (.DidDeactivated (did_string_from_did_id slId0))
      (by rw [deactivate_regDid_eq])).1 slId0 didDetails1
      ({ didDetails1 with
         deactivated := true,
         version := u64_saturating_add didDetails1.version 1 }) rfl
      (by
        rw [deactivate_regDid_eq]
        exact lookupMap_insertMap_self _ _ _)

/-! ## Error provenance helpers -/

theorem decode_did_id_errors {input : Bytes} {e : Err}
    (h : decode_did_id input = .error e) : e = .InvalidDidId := by
  rw [decode_did_id] at h
  split at h
  · injection h with h2
    exact h2.symm
  · split at h
    · exact Except.noConfusion h
    · injection h with h2
      exact h2.symm

theorem decode_status_list_id_errors {input : Bytes} {e : Err}
    (h : decode_status_list_id input = .error e) : e = .InvalidStatusListId := by
  rw [decode_status_list_id] at h
  split at h
  · injection h with h2
    exact h2.symm
  · split at h
    · exact Except.noConfusion h
    · injection h with h2
      exact h2.symm

theorem decode_schema_id_errors {input : Bytes} {e : Err}
    (h : decode_schema_id input = .error e) : e = .InvalidSchemaId := by
  rw [decode_schema_id] at h
  split at h
  · injection h with h2
    exact h2.symm
  · split at h
    · exact Except.noConfusion h
    · injection h with h2
      exact h2.symm

theorem verify_did_signature_no_invalid_pk {env : Env}
    {dids : List (Bytes × DidDetails)} {id sig payload : Bytes} {e : Err}
    (h : verify_did_signature env dids id sig payload = .error e) :
    e ≠ .InvalidPublicKey := by
  intro heq
  subst heq
  rw [verify_did_signature] at h
  split at h
  · injection h with h2
    exact absurd h2 (by decide)
  · split at h
    · injection h with h2
      exact absurd h2 (by decide)
    · split at h
      · exact Except.noConfusion h
      · injection h with h2
        exact absurd h2 (by decide)

theorem revokeFirstKey_errors {keys : List DidKey} {pk : Bytes} {e : Err}
    (h : revokeFirstKey keys pk = .error e) :
    e = .KeyNotFound ∨ e = .KeyAlreadyRevoked := by
  induction keys with
  | nil =>
    simp only [revokeFirstKey] at h
    injection h with h2
    exact Or.inl h2.symm
  | cons k t ih =>
    simp only [revokeFirstKey] at h
    split at h
    · split at h
      · injection h with h2
        exact Or.inr h2.symm
      · exact Except.noConfusion h
    · split at h
      · exact Except.noConfusion h
      · rename_i e2 hrec2
        injection h with h2
        rw [h2] at hrec2
        exact ih hrec2

theorem setRolesFirstKey_errors {keys : List DidKey} {pk : Bytes}
    {roles : List KeyRole} {e : Err}
    (h : setRolesFirstKey keys pk roles = .error e) :
    e = .KeyNotFound ∨ e = .KeyAlreadyRevoked := by
  induction keys with
  | nil =>
    simp only [setRolesFirstKey] at h
    injection h with h2
    exact Or.inl h2.symm
  | cons k t ih =>
    simp only [setRolesFirstKey] at h
    split at h
    · split at h
      · injection h with h2
        exact Or.inr h2.symm
      · exact Except.noConfusion h
    · split at h
      · exact Except.noConfusion h
      · rename_i e2 hrec2
        injection h with h2
        rw [h2] at hrec2
        exact ih hrec2

theorem tryMutateMap_no_ipk {α} {m : List (Bytes × α)} {k : Bytes}
    {f : Option α → Except Err α}
    (h : tryMutateMap m k f = .error .InvalidPublicKey)
    (hf : ∀ o, ¬ f o = .error .InvalidPublicKey) : False := by
  rw [tryMutateMap] at h
  split at h
  · rename_i e2 h2
    injection h with h3
    exact hf _ (h3 ▸ h2)
  · exact Except.noConfusion h

/-- C10 (implicit): stored public keys are never validated as ML-DSA-44
keys — `add_key` appends arbitrary bytes verbatim; no command other than
`create_did` can return `InvalidPublicKey`; and `verify_did_signature`
silently skips non-revoked keys whose bytes fail ML-DSA-44 parsing
(length ≠ 1312), so a DID whose only non-revoked keys are malformed fails
every well-sized signature with `InvalidSignature`. -/
theorem malformed_keys_skipped (env : Env) (s : Registry) :
    (∀ c : Command, c.isCreateDid = false →
      ∀ e, (applyCommand env s c).2 = .error e → e ≠ .InvalidPublicKey) ∧
    (∀ dids id sig payload details, lookupMap dids id = some details →
      sig.length = SIG_LEN →
      (∀ k ∈ details.keys, k.revoked = false → k.public_key.length ≠ PK_LEN) →
      verify_did_signature env dids id sig payload = .error .InvalidSignature) ∧
    (∀ wire id pk roles sig details, decode_did_id wire = .ok id →
      verify_did_signature env s.dids id sig
        (DID_ADD_KEY_TAG ++ scaleBytes wire ++ scaleBytes pk ++ scaleRoles roles) =
          .ok () →
      lookupMap s.dids id = some details →
      details.deactivated = false →
      (∀ k ∈ details.keys, k.public_key ≠ pk) →
      applyCommand env s (.addKey wire pk roles sig) =
        ({ s with dids := insertMap s.dids id
                      ({ details with
                         keys := details.keys ++
                           [{ public_key := pk, roles := roles, revoked := false }],
                         version := u64_saturating_add details.version 1 }) },
          .ok (.KeyAdded (did_string_from_did_id id) pk))) := by
  refine ⟨?_, ?_, ?_⟩
  · intro c hcr e h heq
    subst heq
    cases c
    case createDid pk sg => simp [Command.isCreateDid] at hcr
    all_goals (
      simp only [applyCommand, add_key, revoke_key, deactivate_did,
        add_service, remove_service, set_metadata, remove_metadata, rotate_key,
        update_roles, create_status_list, set_status, register_schema,
        deprecate_schema] at h
      repeat' split at h
      all_goals dsimp only at h
      any_goals exact Except.noConfusion h
      all_goals injection h with h4
      all_goals first
        | exact absurd h4 (by decide)
        | (subst h4
           first
             | exact absurd (decode_did_id_errors (by assumption)) (by decide)
             | exact absurd (decode_status_list_id_errors (by assumption)) (by decide)
             | exact absurd (decode_schema_id_errors (by assumption)) (by decide)
             | exact verify_did_signature_no_invalid_pk (by assumption) rfl
             | exact tryMutateMap_no_ipk (by assumption) (by
                 intro o hcl
                 cases o with
                 | none =>
                   dsimp only at hcl
                   injection hcl with h5
                   exact absurd h5 (by decide)
                 | some d0 =>
                   dsimp only at hcl
                   repeat' split at hcl
                   any_goals exact Except.noConfusion hcl
                   all_goals injection hcl with h5
                   all_goals first
                     | exact absurd h5 (by decide)
                     | (subst h5
                        rcases revokeFirstKey_errors (by assumption) with h6 | h6 <;>
                          exact absurd h6 (by decide))
                     | (subst h5
                        rcases setRolesFirstKey_errors (by assumption) with h6 | h6 <;>
                          exact absurd h6 (by decide)))))
  · intro dids id sig payload details hrec hsig hmal
    apply verify_did_signature_fails env dids id sig payload details hrec hsig
    intro k hk
    by_cases hr : k.revoked
    · simp [keyValidates, hr]
    · have hrf : k.revoked = false := by simpa using hr
      have hlen := hmal k hk hrf
      have hb : (k.public_key.length == PK_LEN) = false := by simp [hlen]
      simp [keyValidates, hb]
  · intro wire id pk roles sig details hdec hver hrec hact hfresh
    have hany : (details.keys.any fun key => key.public_key == pk) = false := by
      rw [List.any_eq_false]
      intro k hk
      simp [hfresh k hk]
    simp only [applyCommand, add_key, hdec, hver]
    rw [tryMutateMap, hrec]
    dsimp only
    rw [if_neg (by simp [hact]), if_neg (by simp [hany])]

/-- C10 witness: a three-byte "public key" is appended verbatim by
`add_key` on the test DID. -/
theorem malformed_keys_skipped_witness :
    applyCommand envT regDid (.addKey slWire0 [1, 2, 3] [] sig1) =
      ({ regDid with dids := insertMap regDid.dids slId0
                         ({ didDetails1 with
                            keys := didDetails1.keys ++
                              [{ public_key := [1, 2, 3], roles := [], revoked := false }],
                            version := u64_saturating_add didDetails1.version 1 }) },
        .ok (.KeyAdded (did_string_from_did_id slId0) [1, 2, 3])) :=
  (malformed_keys_skipped envT regDid).2.2 slWire0 slId0 [1, 2, 3] [] sig1 didDetails1
    decode_did_slWire0 (verify_regDid _) rfl rfl
    (by
      intro k hk
      simp only [didDetails1] at hk
      rw [List.mem_singleton] at hk
      subst hk
      decide)

end QSB
